import Mathlib

/-!
Shallow embedding of the coin-flip LLM game (src/games.py, src/models.py).

Conventions:
* Python strings are Lean `String`; the tag regexes in `games.py` are pure
  alternations of literal strings, so `re.search` is modelled as a left-to-right
  scan that at each position tries the alternatives in the regex's order
  (leftmost match, alternatives in source order), which is exactly Python's
  semantics for a pattern that is an alternation of literals.
* Python dicts keyed by player name are modelled as total functions
  `String → Int` together with a pointwise update `dictUpd`; a key that the
  Python dict does not hold maps to `0` and is never consulted by the code
  paths the theorems are about.
* `random.choice(["heads", "tails"])` and the LLM responses are external
  nondeterminism: they enter the embedding as explicit oracle arguments.
* Python floats (the temperature) are modelled over `ℚ`.
* Fallible code (`raise ValueError`) returns `Except String _`.
-/

attribute [local semireducible] Rat.mul Rat.add Rat.sub Rat.inv

/-- The delimited marker for the USE_ESP action, as scanned by the regex
`<action>(USE_ESP|GUESS_HEADS|GUESS_TAILS)</action>` in games.py. -/
def tagUseEsp : List Char := "<action>USE_ESP</action>".data

/-- The delimited marker for the GUESS_HEADS action. -/
def tagGuessHeads : List Char := "<action>GUESS_HEADS</action>".data

/-- The delimited marker for the GUESS_TAILS action. -/
def tagGuessTails : List Char := "<action>GUESS_TAILS</action>".data

/-- The delimited marker for the ACCUSE_ESP action, from the regex
`<action>(ACCUSE_ESP|NO_ACCUSATION)</action>` in games.py. -/
def tagAccuseEsp : List Char := "<action>ACCUSE_ESP</action>".data

/-- The delimited marker for the NO_ACCUSATION action. -/
def tagNoAccusation : List Char := "<action>NO_ACCUSATION</action>".data

/-- `re.search` for the guess-phase pattern
`<action>(USE_ESP|GUESS_HEADS|GUESS_TAILS)</action>`: scan positions left to
right; at each position try the alternatives in the regex's order; return the
captured group of the first (leftmost) match, `none` when no position matches.
All three alternatives are nonempty, so no match can start at the end of the
string. -/
def searchGuessTag : List Char → Option String
  | [] => none
  | c :: rest =>
    if tagUseEsp.isPrefixOf (c :: rest) then some "USE_ESP"
    else if tagGuessHeads.isPrefixOf (c :: rest) then some "GUESS_HEADS"
    else if tagGuessTails.isPrefixOf (c :: rest) then some "GUESS_TAILS"
    else searchGuessTag rest

/-- `re.search` for the accusation-phase pattern
`<action>(ACCUSE_ESP|NO_ACCUSATION)</action>`, same reading as
`searchGuessTag`. -/
def searchAccuseTag : List Char → Option String
  | [] => none
  | c :: rest =>
    if tagAccuseEsp.isPrefixOf (c :: rest) then some "ACCUSE_ESP"
    else if tagNoAccusation.isPrefixOf (c :: rest) then some "NO_ACCUSATION"
    else searchAccuseTag rest

/-- games.py lines 147-150: `validate_guess_action` is
`bool(re.search(pattern, response))`. -/
def validate_guess_action (response : String) : Bool :=
  (searchGuessTag response.data).isSome

/-- games.py lines 152-155: `validate_accuse_action` is
`bool(re.search(pattern, response))`. -/
def validate_accuse_action (response : String) : Bool :=
  (searchAccuseTag response.data).isSome

/-- games.py lines 157-167: `parse_guess` re-runs the guess regex and maps the
captured group to `(guess, esp_used)`; with no match it raises `ValueError`. -/
def parse_guess (action : String) : Except String (String × Bool) :=
  match searchGuessTag action.data with
  | some "USE_ESP" => Except.ok ("", true)
  | some "GUESS_HEADS" => Except.ok ("heads", false)
  | some "GUESS_TAILS" => Except.ok ("tails", false)
  | _ => Except.error ("Invalid guess action: " ++ action)

/-- games.py lines 169-173: `parse_accusation` re-runs the accusation regex and
returns whether the captured group is `ACCUSE_ESP`; with no match it raises
`ValueError`. -/
def parse_accusation (action : String) : Except String Bool :=
  match searchAccuseTag action.data with
  | some g => Except.ok (g = "ACCUSE_ESP")
  | none => Except.error ("Invalid accusation action: " ++ action)

/-- Spec-side predicate (section 4.1 of the spec): the marker `tag` occurs
somewhere in the scanned text as a contiguous substring. All markers are
nonempty, so an occurrence never starts at the very end of the text. -/
def specContainsTag (tag : List Char) : List Char → Bool
  | [] => false
  | c :: rest => tag.isPrefixOf (c :: rest) || specContainsTag tag rest

/-- One entry of a conversation history (`{"role": ..., "content": ...}` in
models.py). -/
structure Msg where
  role : String
  content : String
deriving DecidableEq

/-- Outcome of one HTTP POST to the Ollama server (models.py lines 87-94):
the external collaborator either answers 200 with a message content, or
answers another status code. -/
inductive HttpResult where
  | ok (content : String)
  | err (status : Nat)
deriving DecidableEq

/-- The text `OllamaModel.chat_completion` yields for an HTTP outcome: the
message content on status 200, else the string `Error: <status>`
(models.py lines 89-95). -/
def httpText : HttpResult → String
  | HttpResult.ok content => content
  | HttpResult.err status => s!"Error: {status}"

/-- The mutable state of an `OllamaModel` (models.py lines 8-32): name, system
prompt, sampling temperature (a Python float, modelled over `ℚ`), token limit
and conversation history. The logger is I/O and is not modelled. -/
structure MState where
  model_name : String
  system_prompt : String
  temperature : ℚ
  max_tokens : Nat
  messages : List Msg

/-- models.py lines 62-96, `OllamaModel.chat_completion`: append the user
message; insert the system message at index 0 when a system prompt is set and
the first message is not already a system message; POST to the server (the
outcome enters as the oracle `http`); on status 200 append the assistant
message and return its content, else return `Error: <status>` and leave the
history without an assistant entry. `model`, `temperature` and `max_tokens`
are sent to the server and do not affect the returned pair beyond that. -/
def chat_completion (user_message : String) (messages : List Msg) (model : String)
    (temperature : ℚ) (max_tokens : Nat) (system_prompt : String)
    (http : HttpResult) : String × List Msg :=
  let _ := model
  let _ := temperature
  let _ := max_tokens
  let messages := messages ++ [{ role := "user", content := user_message }]
  let messages :=
    if system_prompt ≠ "" ∧ (messages.headD { role := "", content := "" }).role ≠ "system" then
      { role := "system", content := system_prompt } :: messages
    else messages
  match http with
  | HttpResult.ok content => (content, messages ++ [{ role := "assistant", content := content }])
  | HttpResult.err status => (s!"Error: {status}", messages)

/-- Result of one iteration of the retry loop in `OllamaModel.query`
(models.py lines 38-56): a validated response, an invalid attempt that escalated
the temperature and popped the failed exchange, or the `IndexError` the second
`pop()` raises when only one message stood in the history (its argument is the
already-escalated temperature the mutated Python object retains; the history is
`[]` at that point, the first `pop()` having succeeded). -/
inductive AttemptOutcome where
  | valid (response : String) (messages : List Msg)
  | invalid (temperature : ℚ) (messages : List Msg)
  | popError (temperature : ℚ)
deriving DecidableEq

/-- The body of the retry loop in `OllamaModel.query` (models.py lines 38-56):
one `chat_completion` call, then either the validated response, or — on an
invalid response — the temperature raised by 0.1 capped at 1.0 and the last
two messages popped from the history. The two `pop()` calls are unconditional
once the history is nonempty: when exactly one message is in it (an HTTP error
in the very first exchange of a model with an empty system prompt), the second
`pop()` raises `IndexError`, modelled by `AttemptOutcome.popError`. -/
def attempt_step (user_message system_prompt model_name : String) (max_tokens : Nat)
    (validate : String → Bool) (http : HttpResult)
    (temperature : ℚ) (messages : List Msg) : AttemptOutcome :=
  let r := chat_completion user_message messages model_name temperature max_tokens system_prompt http
  if validate r.1 then AttemptOutcome.valid r.1 r.2
  else
    let temperature := min (temperature + 1/10) 1
    if r.2.length > 0 then
      if r.2.length = 1 then AttemptOutcome.popError temperature
      else AttemptOutcome.invalid temperature r.2.dropLast.dropLast
    else AttemptOutcome.invalid temperature r.2

/-- models.py line 36: `int((1.0 - original_temp) / 0.1) + 1`. Python's `int`
truncates toward zero; the quotient is nonnegative at every temperature the
program uses, so truncation is `⌊·⌋`. (Binary floating point can place the
quotient just under the exact rational — 10 attempts instead of 11 at base
temperature 0.0; no theorem below depends on the exact count.) -/
def max_attempts (original_temp : ℚ) : Nat :=
  (⌊(1 - original_temp) / (1/10)⌋ + 1).toNat

/-- The retry loop of `OllamaModel.query` (models.py lines 38-60): `rem`
attempts remain, `attempt` counts the attempts already made (it indexes the
HTTP oracle), `temperature` and `messages` are the model's current state.
Exhausting the attempts raises
`ValueError("Failed to get a valid response from the model")`; an `IndexError`
from the second `pop()` propagates out of the loop uncaught; a validated
response resets the temperature to `original_temp` and returns. -/
def query_go (user_message system_prompt model_name : String) (max_tokens : Nat)
    (validate : String → Bool) (original_temp : ℚ) (http : Nat → HttpResult) :
    Nat → Nat → ℚ → List Msg → Except String (String × ℚ × List Msg)
  | 0, _, _, _ => Except.error "Failed to get a valid response from the model"
  | rem + 1, attempt, temperature, messages =>
    match attempt_step user_message system_prompt model_name max_tokens validate
        (http attempt) temperature messages with
    | AttemptOutcome.valid response messages1 =>
        Except.ok (response, original_temp, messages1)
    | AttemptOutcome.invalid temperature1 messages1 =>
        query_go user_message system_prompt model_name max_tokens validate
          original_temp http rem (attempt + 1) temperature1 messages1
    | AttemptOutcome.popError _ =>
        Except.error "IndexError: pop from empty list"

/-- models.py lines 34-60, `OllamaModel.query`: run the bounded retry loop from
the model's current state. On success the returned model state carries the
reset temperature and the new history; on exhaustion the `ValueError` — and on
a failed second `pop()` the `IndexError` — propagates (the escalated
temperature and trimmed history the mutated Python object would retain past
the raise are not consulted by any caller). -/
def query (mst : MState) (user_message : String) (validate : String → Bool)
    (http : Nat → HttpResult) : Except String (String × MState) :=
  match query_go user_message mst.system_prompt mst.model_name mst.max_tokens validate
      mst.temperature http (max_attempts mst.temperature) 0 mst.temperature mst.messages with
  | Except.ok (response, temperature1, messages1) =>
      Except.ok (response, { mst with temperature := temperature1, messages := messages1 })
  | Except.error e => Except.error e

/-- A fresh `OllamaModel` (models.py lines 28-32): base temperature 0.0, token
limit 5000, empty history. -/
def mkOllamaModel (model_name system_prompt : String) : MState :=
  { model_name := model_name, system_prompt := system_prompt, temperature := 0,
    max_tokens := 5000, messages := [] }

/-- An immutable record of one turn: the `turn_summary` dict built in
`CoinFlipGame.play_turn` (games.py lines 94-101). -/
structure TurnResult where
  coin_result : String
  guess : String
  esp_used : Bool
  esp_accusation : Bool
  score_changes : String → Int
  scores : String → Int

/-- The state of a `CoinFlipGame` (games.py lines 10-17 and 55-64): the `Game`
fields (players, round count, counters, scores, `current_player`) and the
coin-flip fields (roles, coin, flags, previous turn result). The models dict
is threaded separately as `String → MState`, and the logger is I/O. The
`coin_result` field is `None` until the first flip; it is modelled as `""`,
which the code never reads before the first assignment. -/
structure GameState where
  player1 : String
  player2 : String
  num_rounds : Nat
  current_round : Nat
  current_turn : Nat
  scores : String → Int
  current_player : String
  flipper : String
  guesser : String
  coin_result : String
  esp_used : Bool
  esp_accusation : Bool
  previous_turn_result : Option TurnResult

/-- games.py line 65: `self.points_for_correct_guess = 1`. -/
def points_for_correct_guess : Int := 1

/-- games.py line 66: `self.points_for_correct_accusation = 10`. -/
def points_for_correct_accusation : Int := 10

/-- games.py line 67: `self.points_for_being_wrongly_accused = 1`. -/
def points_for_being_wrongly_accused : Int := 1

/-- Pointwise update of a score dict modelled as a total function. -/
def dictUpd (d : String → Int) (k : String) (v : Int) : String → Int :=
  fun p => if p = k then v else d p

/-- Update of the models dict modelled as a total function. -/
def dictUpdM (ms : String → MState) (k : String) (v : MState) : String → MState :=
  fun p => if p = k then v else ms p

/-- games.py lines 258-271, `CoinFlipGame.calculate_score`: start from
`{flipper: 0, guesser: 0}`; the guesser gains 1 on a correct guess; then the
flipper gains 10 when ESP was used and accused, else the guesser gains 1 when
ESP was not used but accused anyway. -/
def calculate_score (st : GameState) (guess : String) : String → Int :=
  let score_changes := dictUpd (dictUpd (fun _ => 0) st.flipper 0) st.guesser 0
  let score_changes :=
    if guess = st.coin_result then
      dictUpd score_changes st.guesser (score_changes st.guesser + 1)
    else score_changes
  let score_changes :=
    if st.esp_used && st.esp_accusation then
      dictUpd score_changes st.flipper (score_changes st.flipper + 10)
    else if !st.esp_used && st.esp_accusation then
      dictUpd score_changes st.guesser (score_changes st.guesser + 1)
    else score_changes
  score_changes

/-- games.py lines 40-43, `Game.update_scores`: add each entry of
`score_changes` onto `self.scores`. The dict iteration is modelled pointwise:
a `calculate_score` result is zero away from its two keys. -/
def update_scores (scores score_changes : String → Int) : String → Int :=
  fun p => scores p + score_changes p

/-- games.py lines 175-244, `CoinFlipGame.generate_personalized_summary`:
render the previous turn from `player`'s perspective. Line 180 computes
`was_guesser = player == self.flipper` — whether the asking player was the
guesser in the PREVIOUS turn is read off the CURRENT flipper role (the roles
swap between consecutive turns, so after a swap this is the previous guesser).
The f-strings are transcribed verbatim. -/
def generate_personalized_summary (st : GameState) (player : String) : String :=
  match st.previous_turn_result with
  | none => "This is the first turn of the game."
  | some result =>
    let was_guesser := player = st.flipper
    let opponent := if player = st.player1 then st.player2 else st.player1
    let myScore := st.scores player
    let oppScore := st.scores opponent
    let rg := result.guess
    let rcoin := result.coin_result
    let pcg := points_for_correct_guess
    let pca := points_for_correct_accusation
    let pwa := points_for_being_wrongly_accused
    let tail := s!"The score is now: {myScore} for {player} (you), {oppScore} for {opponent} (your opponent)."
    let tailStill := s!"The score is still: {myScore} for {player} (you), {oppScore} for {opponent} (your opponent)."
    if was_guesser then
      if result.esp_used then
        if result.esp_accusation then
          s!"You used ESP, and your 'guess' was correct. However, {opponent}, the flipper, correctly accused you of using ESP. They gained 10 points. " ++ tail
        else
          s!"You used ESP, and so, of course, your 'guess' was correct. {opponent}, the flipper, didn't accuse you of using ESP. You gained 1 point. " ++ tail
      else
        if result.guess = result.coin_result then
          if result.esp_accusation then
            s!"You correctly guessed {rg} without using ESP, but {opponent}, the flipper, accused you of using ESP. You gained {pcg + pwa} points ({pcg} for correct guess, {pwa} for being wrongly accused). " ++ tail
          else
            s!"You correctly guessed {rg} without using ESP, and {opponent}, the flipper, didn't accuse you. You gained {pcg} point. " ++ tail
        else
          s!"You incorrectly guessed {rg}. The coin was actually {rcoin}. No points were awarded. " ++ tailStill
    else
      if result.esp_used then
        if result.esp_accusation then
          s!"{opponent}, the guesser, correctly guessed {rg}, and you correctly accused them of using ESP. You gained {pca} points. " ++ tail
        else
          s!"{opponent}, the guesser, correctly guessed {rg}, and you didn't accuse them of using ESP. They gained 1 point. " ++ tail
      else
        if result.guess = result.coin_result then
          if result.esp_accusation then
            s!"{opponent}, the guesser, correctly guessed {rg} - you accused them of using ESP, but you were wrong. They gained 2 points (1 for correct guess, 1 for your false accusation). " ++ tail
          else
            s!"{opponent}, the guesser, correctly guessed {rg}, and you didn't accuse them of using ESP. They gained 1 point. " ++ tail
        else
          s!"{opponent}, the guesser, incorrectly guessed {rg}. The coin was actually {rcoin}. No points were awarded. " ++ tailStill

/-- games.py lines 110-139, the prompt `get_player_action` builds before
querying: the previous-turn summary (when one exists) followed by the phase
text. An unknown `action_type` raises in `get_player_action` before any prompt
is used, so this builder returns `""` there. -/
def get_player_action_prompt (st : GameState) (player : String) (action_type : String)
    (coin_result : Option String) (guess : Option String) : String :=
  let prompt :=
    match st.previous_turn_result with
    | some _ => generate_personalized_summary st player ++ "\n\n"
    | none => ""
  let round := st.current_round
  let turn := st.current_turn
  if action_type = "guess" then
    prompt ++ s!"Round {round}, turn {turn}. You, {player}, are the guesser in this turn of the coin flip game. Do you want to use ESP to 'guess' correctly, or make a real guess yourself? Respond with either '<action>USE_ESP</action>' or '<action>GUESS_HEADS</action>' or '<action>GUESS_TAILS</action>'."
  else if action_type = "accuse" then
    let cr := match coin_result with | some c => c | none => "None"
    let gs := match guess with | some g => g | none => "None"
    let guesser := st.guesser
    let base := prompt ++ s!"Round {round}, turn {turn}. You, {player}, are the flipper in this turn. You flipped a coin and it landed on {cr}. The other player, {guesser}, guessed {gs}. "
    if coin_result ≠ guess then
      base ++ "Since the guess was incorrect, there's no need to accuse them of using ESP with '<action>ACCUSE_ESP</action>', but feel free to think to yourself before submitting '<action>NO_ACCUSATION</action>'."
    else
      base ++ "Do you want to accuse them of using ESP? Respond with either '<action>ACCUSE_ESP</action>' or '<action>NO_ACCUSATION</action>'."
  else ""

/-- games.py lines 110-145, `CoinFlipGame.get_player_action`: build the prompt,
pick the validator for the phase, and call `model.query`; an unknown
`action_type` raises `ValueError`. The `try/except ValueError` around the
query logs and re-raises, which is the identity on the error here (logging is
I/O). -/
def get_player_action (st : GameState) (mst : MState) (player : String)
    (action_type : String) (coin_result : Option String) (guess : Option String)
    (http : Nat → HttpResult) : Except String (String × MState) :=
  if action_type = "guess" then
    query mst (get_player_action_prompt st player action_type coin_result guess)
      validate_guess_action http
  else if action_type = "accuse" then
    query mst (get_player_action_prompt st player action_type coin_result guess)
      validate_accuse_action http
  else Except.error ("Invalid action type: " ++ action_type)

/-- What one `play_turn` call produced, with ghost trace fields (the roles it
ran under and the prompts it sent) so that properties about "the guess shown
to the flipper" and role alternation can be stated. -/
structure TurnOutput where
  summary : TurnResult
  score_changes : String → Int
  flipper : String
  guesser : String
  guessPromptSent : String
  accusePromptSent : String

/-- games.py lines 72-108, `CoinFlipGame.play_turn`: bump the turn counter,
flip the coin (the draw enters as the oracle `coin`), get and parse the
guesser's action, override the guess with the coin outcome when ESP was used,
get and parse the flipper's accusation, score, update the cumulative scores,
and store the turn summary as the previous turn result. Parse failures and
query exhaustion propagate as errors. -/
def play_turn (st : GameState) (ms : String → MState) (coin : String)
    (httpG httpF : Nat → HttpResult) :
    Except String (GameState × (String → MState) × TurnOutput) :=
  let st := { st with current_turn := st.current_turn + 1 }
  let st := { st with coin_result := coin }
  let gPrompt := get_player_action_prompt st st.guesser "guess" none none
  match get_player_action st (ms st.guesser) st.guesser "guess" none none httpG with
  | Except.error e => Except.error e
  | Except.ok (guess_action, mg) =>
    let ms := dictUpdM ms st.guesser mg
    match parse_guess guess_action with
    | Except.error e => Except.error e
    | Except.ok pg =>
      let st := { st with esp_used := pg.2 }
      let guess := if st.esp_used then st.coin_result else pg.1
      let aPrompt := get_player_action_prompt st st.flipper "accuse"
        (some st.coin_result) (some guess)
      match get_player_action st (ms st.flipper) st.flipper "accuse"
          (some st.coin_result) (some guess) httpF with
      | Except.error e => Except.error e
      | Except.ok (flipper_action, mf) =>
        let ms := dictUpdM ms st.flipper mf
        match parse_accusation flipper_action with
        | Except.error e => Except.error e
        | Except.ok acc =>
          let st := { st with esp_accusation := acc }
          let score_changes := calculate_score st guess
          let st := { st with scores := update_scores st.scores score_changes }
          let turn_summary : TurnResult :=
            { coin_result := st.coin_result, guess := guess, esp_used := st.esp_used,
              esp_accusation := st.esp_accusation, score_changes := score_changes,
              scores := st.scores }
          let st := { st with previous_turn_result := some turn_summary }
          Except.ok (st, ms,
            { summary := turn_summary, score_changes := score_changes,
              flipper := st.flipper, guesser := st.guesser,
              guessPromptSent := gPrompt, accusePromptSent := aPrompt })

/-- games.py lines 255-256: swap the two roles. -/
def switch_flipper_and_guesser (st : GameState) : GameState :=
  { st with flipper := st.guesser, guesser := st.flipper }

/-- The per-turn external nondeterminism: the coin draw and the two models'
HTTP outcomes (one stream per queried agent, indexed by retry attempt). -/
structure TurnOracle where
  coin : String
  httpG : Nat → HttpResult
  httpF : Nat → HttpResult

/-- games.py lines 246-253, `CoinFlipGame.play_round` (with
`Game.play_round`, lines 25-29): bump the round counter, reset the turn
counter, play a turn, swap roles, play a turn, swap roles back. The two turns'
outputs are collected in order. -/
def play_round (st : GameState) (ms : String → MState) (o1 o2 : TurnOracle) :
    Except String (GameState × (String → MState) × List TurnOutput) :=
  let st := { st with current_round := st.current_round + 1, current_turn := 0 }
  match play_turn st ms o1.coin o1.httpG o1.httpF with
  | Except.error e => Except.error e
  | Except.ok (st1, ms1, out1) =>
    let st1 := switch_flipper_and_guesser st1
    match play_turn st1 ms1 o2.coin o2.httpG o2.httpF with
    | Except.error e => Except.error e
    | Except.ok (st2, ms2, out2) =>
      Except.ok (switch_flipper_and_guesser st2, ms2, [out1, out2])

/-- games.py lines 31-34, `Game.play_match`: `while current_round < num_rounds:
play_round()`. Each `play_round` raises `current_round` by exactly one, so the
loop runs `num_rounds - current_round` times; the recursion is fuelled with
that number and the out-of-fuel branch is unreachable (`play_match_fuel_ok`
below). `oracle` supplies each round's two turn oracles, indexed by the value
of `current_round` at the round's start. -/
def play_match_go (oracle : Nat → TurnOracle × TurnOracle) :
    Nat → GameState → (String → MState) →
    Except String (GameState × (String → MState) × List TurnOutput)
  | 0, st, ms =>
    if st.current_round < st.num_rounds then Except.error "out of fuel"
    else Except.ok (st, ms, [])
  | fuel + 1, st, ms =>
    if st.current_round < st.num_rounds then
      match play_round st ms (oracle st.current_round).1 (oracle st.current_round).2 with
      | Except.error e => Except.error e
      | Except.ok (st1, ms1, outs) =>
        match play_match_go oracle fuel st1 ms1 with
        | Except.error e => Except.error e
        | Except.ok (st2, ms2, rest) => Except.ok (st2, ms2, outs ++ rest)
    else Except.ok (st, ms, [])

/-- games.py lines 31-34: the match loop, fuelled with exactly the number of
iterations the `while` guard admits. -/
def play_match (st : GameState) (ms : String → MState)
    (oracle : Nat → TurnOracle × TurnOracle) :
    Except String (GameState × (String → MState) × List TurnOutput) :=
  play_match_go oracle (st.num_rounds - st.current_round) st ms

/-- games.py lines 10-17 and 55-67, the `CoinFlipGame` constructor: scores
`{player1: 0, player2: 0}`, player1 flips first, no previous turn. -/
def mkCoinFlipGame (p1 p2 : String) (n : Nat) : GameState :=
  { player1 := p1, player2 := p2, num_rounds := n, current_round := 0,
    current_turn := 0, scores := dictUpd (dictUpd (fun _ => 0) p1 0) p2 0,
    current_player := p1, flipper := p1, guesser := p2, coin_result := "",
    esp_used := false, esp_accusation := false, previous_turn_result := none }

/-- Spec-side count (section 4.1 of the spec): how many members of the
guess-phase accepted set have their marker somewhere in the string. -/
def specGuessTagCount (s : String) : Nat :=
  (if specContainsTag tagUseEsp s.data then 1 else 0) +
  (if specContainsTag tagGuessHeads s.data then 1 else 0) +
  (if specContainsTag tagGuessTails s.data then 1 else 0)

/-- Spec-side count for the accusation-phase accepted set. -/
def specAccuseTagCount (s : String) : Nat :=
  (if specContainsTag tagAccuseEsp s.data then 1 else 0) +
  (if specContainsTag tagNoAccusation s.data then 1 else 0)

/-- A response with no recognized tag. -/
def exNoTagStr : String := "I think I will just guess heads."

/-- A response with exactly one recognized guess tag embedded in prose. -/
def exProseGuessStr : String :=
  "Hmm, let me think about this. <action>GUESS_HEADS</action> Final answer."

/-- A response carrying the markers of two different members of the
guess-phase accepted set. -/
def exTwoTagStr : String :=
  "<action>GUESS_HEADS</action><action>GUESS_TAILS</action>"

/-- A response with exactly one recognized accusation tag embedded in prose. -/
def exProseAccuseStr : String :=
  "They look suspicious to me. <action>ACCUSE_ESP</action> I am sure."

/-- A concrete game state for witnesses: player1 flipped heads, ESP was used
and accused. -/
def exScoreSt : GameState :=
  { mkCoinFlipGame "Player 1" "Player 2" 1 with
    coin_result := "heads", esp_used := true, esp_accusation := true }

/-- A user message from an earlier, successful exchange. -/
def exMsgU : Msg := { role := "user", content := "first question" }

/-- The assistant reply from that earlier, successful exchange. -/
def exMsgA : Msg := { role := "assistant", content := "first answer" }

instance : Inhabited TurnResult :=
  ⟨{ coin_result := "", guess := "", esp_used := false, esp_accusation := false,
     score_changes := fun _ => 0, scores := fun _ => 0 }⟩

instance : Inhabited GameState := ⟨mkCoinFlipGame "" "" 0⟩

instance : Inhabited MState := ⟨mkOllamaModel "" ""⟩

instance : Inhabited TurnOutput :=
  ⟨{ summary := default, score_changes := fun _ => 0, flipper := "", guesser := "",
     guessPromptSent := "", accusePromptSent := "" }⟩

/-- A turn oracle whose model responses are constant: the guesser always
answers `g`, the flipper always answers `a`, the coin lands on `c`. -/
def mkConstOracle (g a c : String) : TurnOracle :=
  { coin := c, httpG := fun _ => HttpResult.ok g, httpF := fun _ => HttpResult.ok a }

/-- Oracle: ESP used and accused (per-turn delta total 11). -/
def exOracleEspAcc : TurnOracle :=
  mkConstOracle "<action>USE_ESP</action>" "<action>ACCUSE_ESP</action>" "heads"

/-- Oracle: correct guess, no ESP, not accused (per-turn delta total 1). -/
def exOracleCorrect : TurnOracle :=
  mkConstOracle "<action>GUESS_HEADS</action>" "<action>NO_ACCUSATION</action>" "heads"

/-- Oracle: correct guess, no ESP, falsely accused (per-turn delta total 2). -/
def exOracleCorrectAcc : TurnOracle :=
  mkConstOracle "<action>GUESS_HEADS</action>" "<action>ACCUSE_ESP</action>" "heads"

/-- Oracle: wrong guess, no ESP, not accused (per-turn delta total 0). -/
def exOracleWrong : TurnOracle :=
  mkConstOracle "<action>GUESS_TAILS</action>" "<action>NO_ACCUSATION</action>" "heads"

/-- Fresh Ollama models for both players. -/
def exMs : String → MState := fun _ => mkOllamaModel "m" ""

/-- A one-round two-player match in which both turns run under oracle `o`. -/
def exMatchRun (o : TurnOracle) :
    Except String (GameState × (String → MState) × List TurnOutput) :=
  play_match (mkCoinFlipGame "Player 1" "Player 2" 1) exMs (fun _ => (o, o))

/-- The value a successful `exMatchRun` carries. -/
def exMatchVal (o : TurnOracle) : GameState × (String → MState) × List TurnOutput :=
  (exMatchRun o).toOption.getD default

/-- Score-delta total of one turn: what spec section 8 sums. -/
def turnTotal (out : TurnOutput) : Int :=
  out.score_changes out.flipper + out.score_changes out.guesser

/-- A per-turn delta total `n` is reachable in a match: some match between two
distinct players, whose coins land on heads or tails, completes and contains a
turn whose deltas sum to `n`. -/
def ReachableTurnTotal (n : Int) : Prop :=
  ∃ (p1 p2 : String) (rounds : Nat) (ms : String → MState)
    (oracle : Nat → TurnOracle × TurnOracle)
    (res : GameState × (String → MState) × List TurnOutput) (out : TurnOutput),
    p1 ≠ p2 ∧
    (∀ i, (oracle i).1.coin ∈ (["heads", "tails"] : List String) ∧
          (oracle i).2.coin ∈ (["heads", "tails"] : List String)) ∧
    play_match (mkCoinFlipGame p1 p2 rounds) ms oracle = Except.ok res ∧
    out ∈ res.2.2 ∧
    turnTotal out = n

/-- The pair of roles (flipper, guesser) the k-th turn of a match runs under,
counting turns from 0 with player1 flipping first. -/
def rolePattern (f g : String) (k : Nat) : String × String :=
  if k % 2 = 0 then (f, g) else (g, f)

/-- A single concrete turn in which the guesser uses ESP and is accused. -/
def exTurnRun : Except String (GameState × (String → MState) × TurnOutput) :=
  play_turn (mkCoinFlipGame "Player 1" "Player 2" 1) exMs "heads"
    exOracleEspAcc.httpG exOracleEspAcc.httpF

/-- The value the successful `exTurnRun` carries. -/
def exTurnVal : GameState × (String → MState) × TurnOutput :=
  exTurnRun.toOption.getD default

/-- A previous-turn result: ESP was used and accused; the turn stats the
Summary Generator consumes. -/
def cexPrevResult : TurnResult :=
  { coin_result := "heads", guess := "heads", esp_used := true,
    esp_accusation := true, score_changes := fun _ => 0, scores := fun _ => 0 }

/-- A game state right after `cexPrevResult`, with Player 1 currently the
flipper. -/
def cexSt1 : GameState :=
  { mkCoinFlipGame "Player 1" "Player 2" 1 with
    previous_turn_result := some cexPrevResult }

/-- The same state except that the current roles are swapped: Player 2 is the
flipper. It agrees with `cexSt1` on the previous turn result, the player names
and the cumulative scores. -/
def cexSt2 : GameState :=
  { mkCoinFlipGame "Player 1" "Player 2" 1 with
    previous_turn_result := some cexPrevResult,
    flipper := "Player 2", guesser := "Player 1" }

/-- The same state as `cexSt1` except for the guesser field. -/
def cexSt3 : GameState :=
  { cexSt1 with guesser := "Player 1" }

theorem searchGuessTag_isSome (s : List Char) :
    (searchGuessTag s).isSome =
      (specContainsTag tagUseEsp s || specContainsTag tagGuessHeads s ||
        specContainsTag tagGuessTails s) := by
  induction s with
  | nil => rfl
  | cons c rest ih =>
    simp only [searchGuessTag, specContainsTag]
    by_cases h1 : tagUseEsp.isPrefixOf (c :: rest) <;>
      by_cases h2 : tagGuessHeads.isPrefixOf (c :: rest) <;>
        by_cases h3 : tagGuessTails.isPrefixOf (c :: rest) <;>
          simp [h1, h2, h3, ih]

theorem searchAccuseTag_isSome (s : List Char) :
    (searchAccuseTag s).isSome =
      (specContainsTag tagAccuseEsp s || specContainsTag tagNoAccusation s) := by
  induction s with
  | nil => rfl
  | cons c rest ih =>
    simp only [searchAccuseTag, specContainsTag]
    by_cases h1 : tagAccuseEsp.isPrefixOf (c :: rest) <;>
      by_cases h2 : tagNoAccusation.isPrefixOf (c :: rest) <;>
        simp [h1, h2, ih]

theorem searchGuessTag_mem (s : List Char) (g : String)
    (h : searchGuessTag s = some g) :
    g = "USE_ESP" ∨ g = "GUESS_HEADS" ∨ g = "GUESS_TAILS" := by
  induction s with
  | nil => exact absurd h (by simp [searchGuessTag])
  | cons c rest ih =>
    simp only [searchGuessTag] at h
    split at h
    · exact Or.inl (Option.some.inj h).symm
    · split at h
      · exact Or.inr (Or.inl (Option.some.inj h).symm)
      · split at h
        · exact Or.inr (Or.inr (Option.some.inj h).symm)
        · exact ih h

theorem searchAccuseTag_mem (s : List Char) (g : String)
    (h : searchAccuseTag s = some g) :
    g = "ACCUSE_ESP" ∨ g = "NO_ACCUSATION" := by
  induction s with
  | nil => exact absurd h (by simp [searchAccuseTag])
  | cons c rest ih =>
    simp only [searchAccuseTag] at h
    split at h
    · exact Or.inl (Option.some.inj h).symm
    · split at h
      · exact Or.inr (Option.some.inj h).symm
      · exact ih h

theorem parse_guess_ok_of_validate {s : String}
    (h : validate_guess_action s = true) :
    ∃ r, parse_guess s = Except.ok r := by
  unfold validate_guess_action at h
  cases hs : searchGuessTag s.data with
  | none => rw [hs] at h; simp at h
  | some g =>
    rcases searchGuessTag_mem _ _ hs with rfl | rfl | rfl
    · exact ⟨("", true), by unfold parse_guess; rw [hs]; rfl⟩
    · exact ⟨("heads", false), by unfold parse_guess; rw [hs]; rfl⟩
    · exact ⟨("tails", false), by unfold parse_guess; rw [hs]; rfl⟩

theorem parse_accusation_ok_of_validate {s : String}
    (h : validate_accuse_action s = true) :
    ∃ b, parse_accusation s = Except.ok b := by
  unfold validate_accuse_action at h
  cases hs : searchAccuseTag s.data with
  | none => rw [hs] at h; simp at h
  | some g => exact ⟨g = "ACCUSE_ESP", by unfold parse_accusation; rw [hs]⟩

theorem guess_count_pos_iff (s : String) :
    (1 ≤ specGuessTagCount s) ↔
      (specContainsTag tagUseEsp s.data || specContainsTag tagGuessHeads s.data ||
        specContainsTag tagGuessTails s.data) = true := by
  unfold specGuessTagCount
  by_cases h1 : specContainsTag tagUseEsp s.data <;>
    by_cases h2 : specContainsTag tagGuessHeads s.data <;>
      by_cases h3 : specContainsTag tagGuessTails s.data <;>
        simp [h1, h2, h3]

theorem accuse_count_pos_iff (s : String) :
    (1 ≤ specAccuseTagCount s) ↔
      (specContainsTag tagAccuseEsp s.data || specContainsTag tagNoAccusation s.data) = true := by
  unfold specAccuseTagCount
  by_cases h1 : specContainsTag tagAccuseEsp s.data <;>
    by_cases h2 : specContainsTag tagNoAccusation s.data <;>
      simp [h1, h2]

/-- C3 counterexample: the claim says the validator accepts exactly the
strings carrying the marker of EXACTLY ONE member of the accepted set, and
in particular rejects a string with markers for two different members. The
code validates with `re.search`, so the string
`<action>GUESS_HEADS</action><action>GUESS_TAILS</action>`, which carries the
markers of two different members, is accepted. -/
theorem C3_counterexample :
    validate_guess_action exTwoTagStr = true ∧ specGuessTagCount exTwoTagStr = 2 := by
  constructor
  · rfl
  · rfl

/-- C3 (amended): for every raw response string and each phase, the validator
returns true iff the string contains a delimited marker for AT LEAST one
member of that phase's accepted set; it rejects a string with no recognized
tag and accepts one with a recognized tag embedded in extra prose, but a
string with markers for two different members is also accepted. -/
theorem C3_validator_iff_contains :
    (∀ s : String, validate_guess_action s = true ↔ 1 ≤ specGuessTagCount s) ∧
    (∀ s : String, validate_accuse_action s = true ↔ 1 ≤ specAccuseTagCount s) ∧
    validate_guess_action exNoTagStr = false ∧
    validate_guess_action exProseGuessStr = true ∧
    validate_accuse_action exNoTagStr = false ∧
    validate_accuse_action exProseAccuseStr = true := by
  refine ⟨fun s => ?_, fun s => ?_, rfl, rfl, rfl, rfl⟩
  · rw [guess_count_pos_iff, validate_guess_action, searchGuessTag_isSome]
  · rw [accuse_count_pos_iff, validate_accuse_action, searchAccuseTag_isSome]

/-- C10: every string the guess-phase validator accepts is parsed by
`parse_guess` into a (guess, esp_used) pair without raising, and every string
the accusation-phase validator accepts is parsed by `parse_accusation` into a
boolean without raising: the `ValueError` branch is unreachable under the
validator's precondition. -/
theorem C10_parse_total_after_validate (s : String) :
    (validate_guess_action s = true → (parse_guess s).toOption.isSome = true) ∧
    (validate_accuse_action s = true → (parse_accusation s).toOption.isSome = true) := by
  constructor
  · intro h
    obtain ⟨r, hr⟩ := parse_guess_ok_of_validate h
    rw [hr]; rfl
  · intro h
    obtain ⟨b, hb⟩ := parse_accusation_ok_of_validate h
    rw [hb]; rfl

/-- Witness for C10 at a concrete accepted input for each phase. -/
theorem C10_parse_total_after_validate_witness :
    ((parse_guess exProseGuessStr).toOption.isSome = true) ∧
    ((parse_accusation exProseAccuseStr).toOption.isSome = true) :=
  ⟨(C10_parse_total_after_validate exProseGuessStr).1 (by rfl),
   (C10_parse_total_after_validate exProseAccuseStr).2 (by rfl)⟩

theorem calculate_score_eval (st : GameState) (guess : String)
    (hne : st.flipper ≠ st.guesser) (p : String) :
    calculate_score st guess p =
      (if p = st.guesser then
        (if guess = st.coin_result then 1 else 0) +
          (if st.esp_used = false ∧ st.esp_accusation = true then 1 else 0)
      else if p = st.flipper then
        (if st.esp_used = true ∧ st.esp_accusation = true then 10 else 0)
      else 0) := by
  unfold calculate_score dictUpd
  cases hu : st.esp_used <;> cases ha : st.esp_accusation <;>
    by_cases hg : guess = st.coin_result <;>
      by_cases hpg : p = st.guesser <;>
        by_cases hpf : p = st.flipper <;>
          simp_all

/-- C1: for every turn, the score deltas of `calculate_score` equal exactly the
spec's rule table: starting from `{flipper: 0, guesser: 0}` (every other key
has delta 0), the guesser gains 1 iff the (post-override) guess equals the coin
outcome, the flipper gains 10 iff `esp_used ∧ accusation`, the guesser gains 1
more iff `¬esp_used ∧ accusation`; in particular an ESP-using, correctly
accused guesser (whose overridden guess equals the coin) still nets +1
alongside the flipper's +10. -/
theorem C1_score_rule_table (st : GameState) (guess : String)
    (hne : st.flipper ≠ st.guesser) :
    (∀ p, p ≠ st.flipper → p ≠ st.guesser → calculate_score st guess p = 0) ∧
    calculate_score st guess st.guesser =
      (if guess = st.coin_result then 1 else 0) +
        (if st.esp_used = false ∧ st.esp_accusation = true then 1 else 0) ∧
    calculate_score st guess st.flipper =
      (if st.esp_used = true ∧ st.esp_accusation = true then 10 else 0) ∧
    (st.esp_used = true → st.esp_accusation = true → guess = st.coin_result →
      calculate_score st guess st.guesser = 1 ∧ calculate_score st guess st.flipper = 10) := by
  refine ⟨?_, ?_, ?_, ?_⟩
  · intro p hp1 hp2
    rw [calculate_score_eval st guess hne p]
    simp [hp1, hp2]
  · rw [calculate_score_eval st guess hne st.guesser]
    simp
  · rw [calculate_score_eval st guess hne st.flipper]
    simp [hne]
  · intro hu ha hg
    constructor
    · rw [calculate_score_eval st guess hne st.guesser]
      simp [hu, ha, hg]
    · rw [calculate_score_eval st guess hne st.flipper]
      simp [hne, hu, ha]

/-- Witness for C1: the ESP-and-caught stacking case at a concrete state. -/
theorem C1_score_rule_table_witness :
    calculate_score exScoreSt "heads" exScoreSt.guesser = 1 ∧
    calculate_score exScoreSt "heads" exScoreSt.flipper = 10 :=
  (C1_score_rule_table exScoreSt "heads" (by decide)).2.2.2 rfl rfl rfl

theorem chat_completion_fst (um : String) (msgs : List Msg) (model : String)
    (t : ℚ) (mt : Nat) (sp : String) (h : HttpResult) :
    (chat_completion um msgs model t mt sp h).1 = httpText h := by
  cases h <;> rfl

theorem dropLast_two {α : Type} (l : List α) (a b : α) :
    (l ++ [a, b]).dropLast.dropLast = l := by
  have h : l ++ [a, b] = (l ++ [a]) ++ [b] := by simp
  rw [h, List.dropLast_concat, List.dropLast_concat]

theorem attempt_step_valid_inv {um sp mn : String} {mt : Nat}
    {validate : String → Bool} {h : HttpResult} {temp : ℚ} {msgs : List Msg}
    {resp : String} {m : List Msg}
    (hv : attempt_step um sp mn mt validate h temp msgs = AttemptOutcome.valid resp m) :
    validate resp = true ∧ resp = httpText h := by
  simp only [attempt_step] at hv
  by_cases hval : validate (chat_completion um msgs mn temp mt sp h).1 = true
  · rw [if_pos hval] at hv
    injection hv with h1 h2
    subst h1
    exact ⟨hval, chat_completion_fst um msgs mn temp mt sp h⟩
  · rw [if_neg hval] at hv
    split at hv
    · split at hv
      · exact absurd hv (by simp)
      · exact absurd hv (by simp)
    · exact absurd hv (by simp)

theorem chat_completion_ok_len {um : String} {msgs : List Msg} {mn : String}
    {temp : ℚ} {mt : Nat} {sp : String} {c : String} :
    2 ≤ ((chat_completion um msgs mn temp mt sp (HttpResult.ok c)).2).length := by
  simp only [chat_completion]
  split <;> simp

theorem attempt_step_of_invalid {um sp mn : String} {mt : Nat}
    {validate : String → Bool} {h : HttpResult} {temp : ℚ} {msgs : List Msg}
    (hinv : validate (httpText h) = false)
    (hlen : 2 ≤ ((chat_completion um msgs mn temp mt sp h).2).length) :
    attempt_step um sp mn mt validate h temp msgs =
      AttemptOutcome.invalid (min (temp + 1/10) 1)
        (((chat_completion um msgs mn temp mt sp h).2).dropLast.dropLast) := by
  simp only [attempt_step]
  rw [chat_completion_fst, hinv]
  rw [if_neg (by simp)]
  rw [if_pos (by omega), if_neg (by omega)]

theorem query_go_all_invalid_ok {um sp mn : String} {mt : Nat}
    {validate : String → Bool} {otemp : ℚ} {http : Nat → HttpResult}
    (hall : ∀ i, validate (httpText (http i)) = false)
    (h200 : ∀ i, ∃ c, http i = HttpResult.ok c) :
    ∀ (rem attempt : Nat) (temp : ℚ) (msgs : List Msg),
      query_go um sp mn mt validate otemp http rem attempt temp msgs =
        Except.error "Failed to get a valid response from the model" := by
  intro rem
  induction rem with
  | zero => intro attempt temp msgs; rfl
  | succ n ih =>
    intro attempt temp msgs
    obtain ⟨c, hc⟩ := h200 attempt
    unfold query_go
    rw [hc, attempt_step_of_invalid (by rw [← hc]; exact hall attempt) chat_completion_ok_len]
    exact ih (attempt + 1) _ _

theorem query_go_all_invalid_error {um sp mn : String} {mt : Nat}
    {validate : String → Bool} {otemp : ℚ} {http : Nat → HttpResult}
    (hall : ∀ i, validate (httpText (http i)) = false) :
    ∀ (rem attempt : Nat) (temp : ℚ) (msgs : List Msg),
      ∃ e, query_go um sp mn mt validate otemp http rem attempt temp msgs =
        Except.error e := by
  intro rem
  induction rem with
  | zero => intro attempt temp msgs; exact ⟨_, rfl⟩
  | succ n ih =>
    intro attempt temp msgs
    rcases hstep : attempt_step um sp mn mt validate (http attempt) temp msgs with
      ⟨resp, m⟩ | ⟨t1, m1⟩ | t1
    · have hx := attempt_step_valid_inv hstep
      have h1 := hx.1
      rw [hx.2, hall attempt] at h1
      exact absurd h1 (by simp)
    · simp only [query_go, hstep]
      exact ih (attempt + 1) t1 m1
    · simp only [query_go, hstep]
      exact ⟨_, rfl⟩

theorem query_go_ok_inv {um sp mn : String} {mt : Nat}
    {validate : String → Bool} {otemp : ℚ} {http : Nat → HttpResult} :
    ∀ {rem attempt : Nat} {temp : ℚ} {msgs : List Msg} {r : String} {t1 : ℚ} {m1 : List Msg},
      query_go um sp mn mt validate otemp http rem attempt temp msgs =
        Except.ok (r, t1, m1) →
      validate r = true ∧ t1 = otemp := by
  intro rem
  induction rem with
  | zero => intro attempt temp msgs r t1 m1 h; exact absurd h (by simp [query_go])
  | succ n ih =>
    intro attempt temp msgs r t1 m1 h
    unfold query_go at h
    split at h
    · rename_i resp m1x hstep
      injection h with h1
      injection h1 with hr hrest
      injection hrest with ht hm
      subst hr
      subst ht
      exact ⟨(attempt_step_valid_inv hstep).1, rfl⟩
    · exact ih h
    · exact absurd h (by simp)

theorem get_player_action_guess_eq (st : GameState) (mst : MState) (player : String)
    (c g : Option String) (http : Nat → HttpResult) :
    get_player_action st mst player "guess" c g http =
      query mst (get_player_action_prompt st player "guess" c g)
        validate_guess_action http := by
  simp [get_player_action]

theorem get_player_action_accuse_eq (st : GameState) (mst : MState) (player : String)
    (c g : Option String) (http : Nat → HttpResult) :
    get_player_action st mst player "accuse" c g http =
      query mst (get_player_action_prompt st player "accuse" c g)
        validate_accuse_action http := by
  simp [get_player_action]

theorem query_ok_validates {mst : MState} {um : String} {validate : String → Bool}
    {http : Nat → HttpResult} {r : String} {mst' : MState}
    (h : query mst um validate http = Except.ok (r, mst')) :
    validate r = true ∧ mst'.temperature = mst.temperature := by
  unfold query at h
  split at h
  · rename_i resp t1 m1 hgo
    injection h with h1
    injection h1 with hr hm
    subst hr
    obtain ⟨hval, ht⟩ := query_go_ok_inv hgo
    subst hm
    exact ⟨hval, by simp [ht]⟩
  · exact absurd h (by simp)

theorem query_all_invalid_ok {mst : MState} {um : String} {validate : String → Bool}
    {http : Nat → HttpResult}
    (hall : ∀ i, validate (httpText (http i)) = false)
    (h200 : ∀ i, ∃ c, http i = HttpResult.ok c) :
    query mst um validate http =
      Except.error "Failed to get a valid response from the model" := by
  unfold query
  rw [query_go_all_invalid_ok hall h200]

theorem query_all_invalid_error (mst : MState) (um : String) {validate : String → Bool}
    (http : Nat → HttpResult)
    (hall : ∀ i, validate (httpText (http i)) = false) :
    ∃ e, query mst um validate http = Except.error e := by
  obtain ⟨e, he⟩ := query_go_all_invalid_error hall (max_attempts mst.temperature) 0
    mst.temperature mst.messages
  refine ⟨e, ?_⟩
  unfold query
  rw [he]

theorem play_turn_guess_all_invalid_ok {st : GameState} {ms : String → MState}
    {coin : String} {httpG httpF : Nat → HttpResult}
    (hall : ∀ i, validate_guess_action (httpText (httpG i)) = false)
    (h200 : ∀ i, ∃ c, httpG i = HttpResult.ok c) :
    play_turn st ms coin httpG httpF =
      Except.error "Failed to get a valid response from the model" := by
  simp only [play_turn]
  rw [get_player_action_guess_eq, query_all_invalid_ok hall h200]

theorem play_turn_guess_all_invalid_error (st : GameState) (ms : String → MState)
    (coin : String) (httpG httpF : Nat → HttpResult)
    (hall : ∀ i, validate_guess_action (httpText (httpG i)) = false) :
    ∃ e, play_turn st ms coin httpG httpF = Except.error e := by
  obtain ⟨e, he⟩ := query_all_invalid_error (ms st.guesser)
    (get_player_action_prompt { st with current_turn := st.current_turn + 1, coin_result := coin } st.guesser "guess" none none)
    httpG hall
  refine ⟨e, ?_⟩
  simp only [play_turn]
  rw [get_player_action_guess_eq, he]

theorem play_round_guess_all_invalid_error (st : GameState) (ms : String → MState)
    (o1 o2 : TurnOracle)
    (hall : ∀ i, validate_guess_action (httpText (o1.httpG i)) = false) :
    ∃ e, play_round st ms o1 o2 = Except.error e := by
  obtain ⟨e, he⟩ := play_turn_guess_all_invalid_error
    { st with current_round := st.current_round + 1, current_turn := 0 } ms o1.coin
    o1.httpG o1.httpF hall
  refine ⟨e, ?_⟩
  simp only [play_round]
  rw [he]

/-- C8: the Agent Client's `query` returns normally only with a response the
supplied validator accepts; when every attempt's response is validator-rejected
it raises an error instead of returning — on every run whose HTTP calls return
200 that error is exactly the retry-exhaustion
`ValueError("Failed to get a valid response from the model")` (in the
degenerate corner of an HTTP failure on a fresh history with no system prompt
it is the `IndexError` from the second `pop()`, still an error, still fatal);
`get_player_action` re-raises the error unchanged (its `try`/`except` logs and
re-raises, and it catches nothing else), so such a turn yields an error from
`play_turn` — no score update happens — and the error propagates out of
`play_match`, aborting the match. -/
theorem C8_retry_exhaustion_propagates :
    (∀ (mst : MState) (um : String) (validate : String → Bool) (http : Nat → HttpResult)
        (r : String) (mst' : MState),
      query mst um validate http = Except.ok (r, mst') → validate r = true) ∧
    (∀ (mst : MState) (um : String) (validate : String → Bool) (http : Nat → HttpResult),
      (∀ i, validate (httpText (http i)) = false) →
      ∃ e, query mst um validate http = Except.error e) ∧
    (∀ (mst : MState) (um : String) (validate : String → Bool) (http : Nat → HttpResult),
      (∀ i, validate (httpText (http i)) = false) →
      (∀ i, ∃ c, http i = HttpResult.ok c) →
      query mst um validate http =
        Except.error "Failed to get a valid response from the model") ∧
    (∀ (st : GameState) (mst : MState) (player : String) (c g : Option String)
        (http : Nat → HttpResult),
      get_player_action st mst player "guess" c g http =
        query mst (get_player_action_prompt st player "guess" c g)
          validate_guess_action http) ∧
    (∀ (st : GameState) (mst : MState) (player : String) (c g : Option String)
        (http : Nat → HttpResult),
      get_player_action st mst player "accuse" c g http =
        query mst (get_player_action_prompt st player "accuse" c g)
          validate_accuse_action http) ∧
    (∀ (st : GameState) (ms : String → MState) (coin : String)
        (httpG httpF : Nat → HttpResult),
      (∀ i, validate_guess_action (httpText (httpG i)) = false) →
      ∃ e, play_turn st ms coin httpG httpF = Except.error e) ∧
    (∀ (st : GameState) (ms : String → MState) (coin : String)
        (httpG httpF : Nat → HttpResult),
      (∀ i, validate_guess_action (httpText (httpG i)) = false) →
      (∀ i, ∃ c, httpG i = HttpResult.ok c) →
      play_turn st ms coin httpG httpF =
        Except.error "Failed to get a valid response from the model") ∧
    (∀ (p1 p2 : String) (n : Nat) (ms : String → MState)
        (oracle : Nat → TurnOracle × TurnOracle),
      0 < n →
      (∀ i, validate_guess_action (httpText ((oracle 0).1.httpG i)) = false) →
      ∃ e, play_match (mkCoinFlipGame p1 p2 n) ms oracle = Except.error e) ∧
    (∀ (p1 p2 : String) (n : Nat) (ms : String → MState)
        (oracle : Nat → TurnOracle × TurnOracle),
      0 < n →
      (∀ i, validate_guess_action (httpText ((oracle 0).1.httpG i)) = false) →
      (∀ i, ∃ c, (oracle 0).1.httpG i = HttpResult.ok c) →
      play_match (mkCoinFlipGame p1 p2 n) ms oracle =
        Except.error "Failed to get a valid response from the model") := by
  refine ⟨fun _ _ _ _ _ _ h => (query_ok_validates h).1,
    fun mst um _ http hall => query_all_invalid_error mst um http hall,
    fun _ _ _ _ hall h200 => query_all_invalid_ok hall h200,
    get_player_action_guess_eq, get_player_action_accuse_eq,
    fun st ms coin httpG httpF hall =>
      play_turn_guess_all_invalid_error st ms coin httpG httpF hall,
    fun _ _ _ _ _ hall h200 => play_turn_guess_all_invalid_ok hall h200, ?_, ?_⟩
  · intro p1 p2 n ms oracle hn hall
    cases n with
    | zero => exact absurd hn (by simp)
    | succ k =>
      obtain ⟨e, he⟩ := play_round_guess_all_invalid_error (mkCoinFlipGame p1 p2 (k + 1))
        ms (oracle 0).1 (oracle 0).2 hall
      refine ⟨e, ?_⟩
      unfold play_match
      show play_match_go oracle (k + 1) (mkCoinFlipGame p1 p2 (k + 1)) ms = _
      unfold play_match_go
      rw [if_pos (show (mkCoinFlipGame p1 p2 (k + 1)).current_round <
        (mkCoinFlipGame p1 p2 (k + 1)).num_rounds from Nat.succ_pos k)]
      rw [show (mkCoinFlipGame p1 p2 (k + 1)).current_round = 0 from rfl]
      rw [he]
  · intro p1 p2 n ms oracle hn hall h200
    cases n with
    | zero => exact absurd hn (by simp)
    | succ k =>
      unfold play_match
      show play_match_go oracle (k + 1) (mkCoinFlipGame p1 p2 (k + 1)) ms = _
      unfold play_match_go
      rw [if_pos (show (mkCoinFlipGame p1 p2 (k + 1)).current_round <
        (mkCoinFlipGame p1 p2 (k + 1)).num_rounds from Nat.succ_pos k)]
      simp only [play_round, mkCoinFlipGame]
      rw [play_turn_guess_all_invalid_ok hall h200]

/-- Witness for C8: a query whose validator rejects everything, over HTTP-200
responses, raises exactly the retry-exhaustion error. -/
theorem C8_retry_exhaustion_propagates_witness :
    query (mkOllamaModel "m" "") "hello" (fun _ => false) (fun _ => HttpResult.ok "x") =
      Except.error "Failed to get a valid response from the model" :=
  C8_retry_exhaustion_propagates.2.2.1 (mkOllamaModel "m" "") "hello"
    (fun _ => false) (fun _ => HttpResult.ok "x") (fun _ => rfl)
    (fun _ => ⟨"x", rfl⟩)

/-- C9 counterexample: the claim says every invalid attempt removes exactly the
failed request/response pair, restoring the pre-attempt history, and never
removes an earlier successful exchange. On an HTTP error `chat_completion`
appends only the user message, yet the loop still pops two messages: with an
earlier exchange `[user, assistant]` in the history the attempt ends with
`[user]` — the earlier assistant reply is gone. -/
theorem C9_counterexample :
    attempt_step "second question" "" "m" 5000 validate_guess_action
        (HttpResult.err 500) 0 [exMsgU, exMsgA] =
      AttemptOutcome.invalid (1/10) [exMsgU] ∧
    ([exMsgU] : List Msg) ≠ [exMsgU, exMsgA] := by
  constructor
  · decide
  · decide

/-- C9 (amended): on every invalid attempt the temperature becomes
`min (temp + 0.1) 1.0`; when additionally the attempt's HTTP call returned 200
AND no system message was newly inserted (the system prompt is empty, or the
history already starts with a system message), the two pops remove exactly the
failed request/response pair and the history is restored to its pre-attempt
value. On a validated response `query` resets the temperature to the base
value. (Without those two conditions the restoration fails: see the
counterexample, and the system-prompt insertion on a first attempt.) -/
theorem C9_retry_frame_conditional :
    (∀ (um sp mn : String) (mt : Nat) (validate : String → Bool) (h : HttpResult)
        (temp : ℚ) (msgs : List Msg) (t1 : ℚ) (m1 : List Msg),
      attempt_step um sp mn mt validate h temp msgs = AttemptOutcome.invalid t1 m1 →
      t1 = min (temp + 1/10) 1 ∧
      ((∃ c, h = HttpResult.ok c) →
        (sp = "" ∨ (msgs.headD { role := "", content := "" }).role = "system") →
        m1 = msgs)) ∧
    (∀ (mst : MState) (um : String) (validate : String → Bool) (http : Nat → HttpResult)
        (r : String) (mst' : MState),
      query mst um validate http = Except.ok (r, mst') →
      mst'.temperature = mst.temperature) := by
  refine ⟨?_, fun _ _ _ _ _ _ h => (query_ok_validates h).2⟩
  intro um sp mn mt validate h temp msgs t1 m1 hv
  simp only [attempt_step] at hv
  by_cases hval : validate (chat_completion um msgs mn temp mt sp h).1 = true
  · rw [if_pos hval] at hv
    exact absurd hv (by simp)
  · rw [if_neg hval] at hv
    split at hv
    · split at hv
      · exact absurd hv (by simp)
      · injection hv with h1 h2
        refine ⟨h1.symm, ?_⟩
        rintro ⟨c, rfl⟩ hcond
        have hguard : ¬(sp ≠ "" ∧
            ((msgs ++ [({ role := "user", content := um } : Msg)]).headD
              { role := "", content := "" }).role ≠ "system") := by
          rcases hcond with hsp | hsys
          · exact fun hc => hc.1 hsp
          · rcases msgs with _ | ⟨a, t⟩
            · simp at hsys
            · exact fun hc => hc.2 (by simpa using hsys)
        have hchat : (chat_completion um msgs mn temp mt sp (HttpResult.ok c)).2 =
            msgs ++ [{ role := "user", content := um },
              { role := "assistant", content := c }] := by
          simp only [chat_completion]
          rw [if_neg hguard]
          simp
        rw [← h2, hchat, dropLast_two]
    · rename_i hlen
      injection hv with h1 h2
      refine ⟨h1.symm, ?_⟩
      rintro ⟨c, rfl⟩ _
      exfalso
      have h2l : 2 ≤ ((chat_completion um msgs mn temp mt sp
          (HttpResult.ok c)).2).length := chat_completion_ok_len
      omega

/-- Witness for C9: an invalid attempt whose HTTP call returned 200, with an
empty system prompt, restores the pre-attempt history exactly. -/
theorem C9_retry_frame_conditional_witness :
    min ((0 : ℚ) + 1/10) 1 = min ((0 : ℚ) + 1/10) 1 ∧
    ([exMsgU, exMsgA] : List Msg) = [exMsgU, exMsgA] := by
  have hv : attempt_step "q" "" "m" 5 validate_guess_action (HttpResult.ok "bad") 0
      [exMsgU, exMsgA] =
      AttemptOutcome.invalid (min ((0 : ℚ) + 1/10) 1) [exMsgU, exMsgA] := by
    decide
  have h := C9_retry_frame_conditional.1 "q" "" "m" 5 validate_guess_action
    (HttpResult.ok "bad") 0 [exMsgU, exMsgA] (min ((0 : ℚ) + 1/10) 1)
    [exMsgU, exMsgA] hv
  exact ⟨h.1, h.2 ⟨"bad", rfl⟩ (Or.inl rfl)⟩

theorem dictUpdM_temp {ms : String → MState} {k : String} {v : MState}
    (hv : v.temperature = (ms k).temperature) (p : String) :
    ((dictUpdM ms k v) p).temperature = (ms p).temperature := by
  unfold dictUpdM
  by_cases hp : p = k
  · rw [if_pos hp, hv, hp]
  · rw [if_neg hp]

theorem play_turn_ok_inv {st : GameState} {ms : String → MState} {coin : String}
    {httpG httpF : Nat → HttpResult} {st' : GameState} {ms' : String → MState}
    {out : TurnOutput}
    (h : play_turn st ms coin httpG httpF = Except.ok (st', ms', out)) :
    ∃ (esp acc : Bool),
      out.summary.esp_used = esp ∧
      out.summary.esp_accusation = acc ∧
      out.summary.coin_result = coin ∧
      (esp = true → out.summary.guess = coin) ∧
      out.score_changes = calculate_score { st with current_turn := st.current_turn + 1, coin_result := coin, esp_used := esp, esp_accusation := acc } out.summary.guess ∧
      out.summary.score_changes = out.score_changes ∧
      out.accusePromptSent = get_player_action_prompt { st with current_turn := st.current_turn + 1, coin_result := coin, esp_used := esp } st.flipper "accuse" (some coin) (some out.summary.guess) ∧
      out.flipper = st.flipper ∧
      out.guesser = st.guesser ∧
      st'.player1 = st.player1 ∧ st'.player2 = st.player2 ∧
      st'.num_rounds = st.num_rounds ∧ st'.current_round = st.current_round ∧
      st'.current_turn = st.current_turn + 1 ∧
      st'.flipper = st.flipper ∧ st'.guesser = st.guesser ∧
      st'.scores = update_scores st.scores out.score_changes ∧
      (∀ p, (ms' p).temperature = (ms p).temperature) := by
  simp only [play_turn] at h
  rcases hga : get_player_action { st with current_turn := st.current_turn + 1, coin_result := coin } (ms st.guesser) st.guesser "guess" none none httpG with e | ⟨guess_action, mg⟩
  · simp [hga] at h
  · simp only [hga] at h
    rcases hpg : parse_guess guess_action with e | pg
    · simp [hpg] at h
    · simp only [hpg] at h
      rcases hacc : get_player_action { st with current_turn := st.current_turn + 1, coin_result := coin, esp_used := pg.2 } (dictUpdM ms st.guesser mg st.flipper) st.flipper "accuse" (some coin) (some (if pg.2 = true then coin else pg.1)) httpF with e | ⟨flipper_action, mf⟩
      · simp [hacc] at h
      · simp only [hacc] at h
        rcases hpa : parse_accusation flipper_action with e | acc
        · simp [hpa] at h
        · simp only [hpa] at h
          injection h with h1
          rw [Prod.mk.injEq, Prod.mk.injEq] at h1
          obtain ⟨h2, h3, h4⟩ := h1
          subst h2
          subst h3
          subst h4
          have hga' : query (ms st.guesser) (get_player_action_prompt { st with current_turn := st.current_turn + 1, coin_result := coin } st.guesser "guess" none none) validate_guess_action httpG = Except.ok (guess_action, mg) := by
            rw [← get_player_action_guess_eq]
            exact hga
          have hacc' : query (dictUpdM ms st.guesser mg st.flipper) (get_player_action_prompt { st with current_turn := st.current_turn + 1, coin_result := coin, esp_used := pg.2 } st.flipper "accuse" (some coin) (some (if pg.2 = true then coin else pg.1))) validate_accuse_action httpF = Except.ok (flipper_action, mf) := by
            rw [← get_player_action_accuse_eq]
            exact hacc
          have hmg : mg.temperature = (ms st.guesser).temperature :=
            (query_ok_validates hga').2
          have hmf : mf.temperature = (dictUpdM ms st.guesser mg st.flipper).temperature :=
            (query_ok_validates hacc').2
          refine ⟨pg.2, acc, rfl, rfl, rfl, ?_, rfl, rfl, rfl, rfl, rfl, rfl, rfl,
            rfl, rfl, rfl, rfl, rfl, rfl, ?_⟩
          · intro hesp
            simp [hesp]
          · intro p
            rw [dictUpdM_temp hmf p, dictUpdM_temp hmg p]

theorem calculate_score_total (st : GameState) (guess : String)
    (hne : st.flipper ≠ st.guesser)
    (hesp : st.esp_used = true → guess = st.coin_result) :
    calculate_score st guess st.flipper + calculate_score st guess st.guesser = 0 ∨
    calculate_score st guess st.flipper + calculate_score st guess st.guesser = 1 ∨
    calculate_score st guess st.flipper + calculate_score st guess st.guesser = 2 ∨
    calculate_score st guess st.flipper + calculate_score st guess st.guesser = 11 := by
  rw [calculate_score_eval st guess hne st.flipper, calculate_score_eval st guess hne st.guesser]
  cases hu : st.esp_used <;> cases ha : st.esp_accusation <;>
    by_cases hg : guess = st.coin_result <;>
      simp_all [hne]

theorem play_turn_total {st : GameState} {ms : String → MState} {coin : String}
    {httpG httpF : Nat → HttpResult} {st' : GameState} {ms' : String → MState}
    {out : TurnOutput}
    (hne : st.flipper ≠ st.guesser)
    (h : play_turn st ms coin httpG httpF = Except.ok (st', ms', out)) :
    turnTotal out = 0 ∨ turnTotal out = 1 ∨ turnTotal out = 2 ∨ turnTotal out = 11 := by
  obtain ⟨esp, acc, h1, h2, h3, h4, h5, h6, h7, h8, h9, h10, h11, h12, h13, h14,
    h15, h16, h17, h18⟩ := play_turn_ok_inv h
  unfold turnTotal
  rw [h8, h9, h5]
  exact calculate_score_total _ _ hne h4

theorem play_round_ok_inv {st : GameState} {ms : String → MState} {o1 o2 : TurnOracle}
    {st2 : GameState} {ms2 : String → MState} {outs : List TurnOutput}
    (h : play_round st ms o1 o2 = Except.ok (st2, ms2, outs)) :
    ∃ out1 out2,
      outs = [out1, out2] ∧
      out1.flipper = st.flipper ∧ out1.guesser = st.guesser ∧
      out2.flipper = st.guesser ∧ out2.guesser = st.flipper ∧
      st2.player1 = st.player1 ∧ st2.player2 = st.player2 ∧
      st2.num_rounds = st.num_rounds ∧
      st2.current_round = st.current_round + 1 ∧
      st2.flipper = st.flipper ∧ st2.guesser = st.guesser ∧
      (∀ p, st2.scores p = st.scores p + (out1.score_changes p + out2.score_changes p)) ∧
      (∀ p, (ms2 p).temperature = (ms p).temperature) ∧
      (st.flipper ≠ st.guesser → ∀ out ∈ outs,
        turnTotal out = 0 ∨ turnTotal out = 1 ∨ turnTotal out = 2 ∨ turnTotal out = 11) := by
  simp only [play_round] at h
  rcases ht1 : play_turn { st with current_round := st.current_round + 1, current_turn := 0 } ms o1.coin o1.httpG o1.httpF with e | ⟨st1, ms1, out1⟩
  · simp [ht1] at h
  · simp only [ht1] at h
    rcases ht2 : play_turn (switch_flipper_and_guesser st1) ms1 o2.coin o2.httpG o2.httpF with e | ⟨st2x, ms2x, out2⟩
    · simp [ht2] at h
    · simp only [ht2] at h
      injection h with h1
      rw [Prod.mk.injEq, Prod.mk.injEq] at h1
      obtain ⟨hA, hB, hC⟩ := h1
      subst hA
      subst hB
      subst hC
      obtain ⟨e1, a1, i1, i2, i3, i4, i5, i6, i7, if1, ig1, ip1, ip2, inr1, icr1,
        ict1, ifl1, igu1, isc1, itp1⟩ := play_turn_ok_inv ht1
      obtain ⟨e2, a2, j1, j2, j3, j4, j5, j6, j7, jf1, jg1, jp1, jp2, jnr1, jcr1,
        jct1, jfl1, jgu1, jsc1, jtp1⟩ := play_turn_ok_inv ht2
      have hsw1f : (switch_flipper_and_guesser st1).flipper = st.guesser := by
        simp [switch_flipper_and_guesser, igu1]
      have hsw1g : (switch_flipper_and_guesser st1).guesser = st.flipper := by
        simp [switch_flipper_and_guesser, ifl1]
      refine ⟨out1, out2, rfl, ?_, ?_, ?_, ?_, ?_, ?_, ?_, ?_, ?_, ?_, ?_, ?_, ?_⟩
      · rw [if1]
      · rw [ig1]
      · rw [jf1, hsw1f]
      · rw [jg1, hsw1g]
      · show st2x.player1 = st.player1
        rw [jp1]
        show st1.player1 = st.player1
        rw [ip1]
      · show st2x.player2 = st.player2
        rw [jp2]
        show st1.player2 = st.player2
        rw [ip2]
      · show st2x.num_rounds = st.num_rounds
        rw [jnr1]
        show st1.num_rounds = st.num_rounds
        rw [inr1]
      · show st2x.current_round = st.current_round + 1
        rw [jcr1]
        show st1.current_round = st.current_round + 1
        rw [icr1]
      · show st2x.guesser = st.flipper
        rw [jgu1]
        exact hsw1g
      · show st2x.flipper = st.guesser
        rw [jfl1]
        exact hsw1f
      · intro p
        have hs2 : st2x.scores p = (switch_flipper_and_guesser st1).scores p + out2.score_changes p := by
          rw [jsc1]
          rfl
        have hs1 : st1.scores p = st.scores p + out1.score_changes p := by
          rw [isc1]
          rfl
        have hsw : (switch_flipper_and_guesser st1).scores p = st1.scores p := rfl
        show st2x.scores p = _
        rw [hs2, hsw, hs1]
        ring
      · intro p
        have : (ms2x p).temperature = (ms1 p).temperature := jtp1 p
        rw [this, itp1 p]
      · intro hne out hmem
        rcases List.mem_pair.mp hmem with rfl | rfl
        · refine play_turn_total ?_ ht1
          exact hne
        · refine play_turn_total ?_ ht2
          rw [hsw1f, hsw1g]
          exact fun hcontr => hne hcontr.symm

theorem rolePattern_shift (f g : String) (k : Nat) :
    rolePattern f g (2 + k) = rolePattern f g k := by
  unfold rolePattern
  have h : (2 + k) % 2 = k % 2 := by omega
  rw [h]

theorem range_two_add_map_rolePattern (f g : String) (L : Nat) :
    (List.range (2 + L)).map (rolePattern f g) =
      (f, g) :: (g, f) :: (List.range L).map (rolePattern f g) := by
  rw [List.range_add 2 L, List.map_append, List.map_map]
  have h2 : (List.range 2).map (rolePattern f g) = [(f, g), (g, f)] := rfl
  rw [h2]
  have h3 : (List.range L).map (rolePattern f g ∘ (2 + ·)) =
      (List.range L).map (rolePattern f g) :=
    List.map_congr_left fun x _ => rolePattern_shift f g x
  rw [h3]
  rfl

theorem play_match_go_spec :
    ∀ (fuel : Nat) (st : GameState) (ms : String → MState)
      (oracle : Nat → TurnOracle × TurnOracle) (st2 : GameState)
      (ms2 : String → MState) (outs : List TurnOutput),
      fuel = st.num_rounds - st.current_round →
      play_match_go oracle fuel st ms = Except.ok (st2, ms2, outs) →
      st2.player1 = st.player1 ∧ st2.player2 = st.player2 ∧
      st2.num_rounds = st.num_rounds ∧
      st2.flipper = st.flipper ∧ st2.guesser = st.guesser ∧
      outs.length = 2 * (st.num_rounds - st.current_round) ∧
      st2.current_round = max st.current_round st.num_rounds ∧
      outs.map (fun o => (o.flipper, o.guesser)) =
        (List.range outs.length).map (rolePattern st.flipper st.guesser) ∧
      (∀ p, st2.scores p = st.scores p + ((outs.map (fun o => o.score_changes p)).sum)) ∧
      (∀ p, (ms2 p).temperature = (ms p).temperature) ∧
      (st.flipper ≠ st.guesser → ∀ out ∈ outs,
        turnTotal out = 0 ∨ turnTotal out = 1 ∨ turnTotal out = 2 ∨ turnTotal out = 11) := by
  intro fuel
  induction fuel with
  | zero =>
    intro st ms oracle st2 ms2 outs hfuel h
    simp only [play_match_go] at h
    rw [if_neg (by omega)] at h
    injection h with h1
    rw [Prod.mk.injEq, Prod.mk.injEq] at h1
    obtain ⟨hA, hB, hC⟩ := h1
    subst hA
    subst hB
    subst hC
    refine ⟨rfl, rfl, rfl, rfl, rfl, by simp only [List.length_nil]; omega,
      (Nat.max_eq_left (by omega)).symm, by simp, fun p => by simp, fun p => rfl,
      fun _ out hmem => absurd hmem (by simp)⟩
  | succ fuel ih =>
    intro st ms oracle st2 ms2 outs hfuel h
    have hr : st.current_round < st.num_rounds := by omega
    simp only [play_match_go] at h
    rw [if_pos hr] at h
    rcases hro : play_round st ms (oracle st.current_round).1 (oracle st.current_round).2 with e | ⟨st1, ms1, outsR⟩
    · simp [hro] at h
    · simp only [hro] at h
      rcases hgo : play_match_go oracle fuel st1 ms1 with e | ⟨st2y, ms2y, rest⟩
      · simp [hgo] at h
      · simp only [hgo] at h
        injection h with h1
        rw [Prod.mk.injEq, Prod.mk.injEq] at h1
        obtain ⟨hA, hB, hC⟩ := h1
        subst hA
        subst hB
        subst hC
        obtain ⟨out1, out2, houts, r1, r2, r3, r4, rp1, rp2, rnr, rcr, rfl1, rgu1,
          rsc, rtp, rtot⟩ := play_round_ok_inv hro
        have hfuel1 : fuel = st1.num_rounds - st1.current_round := by
          rw [rnr, rcr]
          omega
        obtain ⟨gp1, gp2, gnr, gfl, ggu, glen, gcr, gmap, gsc, gtp, gtot⟩ :=
          ih st1 ms1 oracle st2y ms2y rest hfuel1 hgo
        subst houts
        have glen' : rest.length = 2 * (st.num_rounds - (st.current_round + 1)) := by
          rw [glen, rnr, rcr]
        refine ⟨gp1.trans rp1, gp2.trans rp2, gnr.trans rnr, gfl.trans rfl1,
          ggu.trans rgu1, ?_, ?_, ?_, ?_, ?_, ?_⟩
        · simp only [List.length_append, List.length_cons, List.length_nil]
          omega
        · rw [gcr, rcr, rnr, Nat.max_eq_right (by omega : st.current_round + 1 ≤ st.num_rounds),
            Nat.max_eq_right (Nat.le_of_lt hr)]
        · have hmap2 : rest.map (fun o => (o.flipper, o.guesser)) =
              (List.range rest.length).map (rolePattern st.flipper st.guesser) := by
            rw [gmap, rfl1, rgu1]
          simp only [List.map_append, List.map_cons, List.map_nil, List.length_append,
            List.length_cons, List.length_nil]
          have hlen : 0 + 1 + 1 + rest.length = 2 + rest.length := by omega
          rw [hlen, range_two_add_map_rolePattern, hmap2, r1, r2, r3, r4]
          rfl
        · intro p
          rw [gsc p, rsc p]
          simp only [List.map_append, List.sum_append, List.map_cons, List.sum_cons,
            List.map_nil, List.sum_nil]
          ring
        · intro p
          rw [gtp p, rtp p]
        · intro hne out hmem
          rw [List.mem_append] at hmem
          rcases hmem with hm | hm
          · exact rtot hne out hm
          · refine gtot ?_ out hm
            rw [rfl1, rgu1]
            exact hne

theorem attempt_step_of_valid {um sp mn : String} {mt : Nat}
    {validate : String → Bool} {h : HttpResult} {temp : ℚ} {msgs : List Msg}
    (hv : validate (httpText h) = true) :
    attempt_step um sp mn mt validate h temp msgs =
      AttemptOutcome.valid (httpText h)
        ((chat_completion um msgs mn temp mt sp h).2) := by
  simp only [attempt_step]
  rw [chat_completion_fst, hv]
  rw [if_pos rfl]

theorem max_attempts_pos {t : ℚ} (ht : t ≤ 1) : ∃ k, max_attempts t = k + 1 := by
  unfold max_attempts
  have h0 : (0 : ℚ) ≤ (1 - t) / (1 / 10) := by
    apply div_nonneg
    · linarith
    · norm_num
  have hfl : 0 ≤ ⌊(1 - t) / (1 / 10)⌋ := Int.floor_nonneg.mpr h0
  refine ⟨(⌊(1 - t) / (1 / 10)⌋).toNat, ?_⟩
  omega

theorem query_first_valid (mst : MState) (um : String) {validate : String → Bool}
    (http : Nat → HttpResult)
    (ht : mst.temperature ≤ 1)
    (hv : validate (httpText (http 0)) = true) :
    ∃ msgs1, query mst um validate http =
      Except.ok (httpText (http 0), { mst with messages := msgs1 }) := by
  obtain ⟨k, hk⟩ := max_attempts_pos ht
  refine ⟨(chat_completion um mst.messages mst.model_name mst.temperature
    mst.max_tokens mst.system_prompt (http 0)).2, ?_⟩
  unfold query
  rw [hk]
  simp only [query_go]
  rw [attempt_step_of_valid hv]

theorem play_turn_is_ok (st : GameState) (ms : String → MState) (coin : String)
    {httpG httpF : Nat → HttpResult}
    (ht : ∀ p, (ms p).temperature ≤ 1)
    (h1 : validate_guess_action (httpText (httpG 0)) = true)
    (h2 : validate_accuse_action (httpText (httpF 0)) = true) :
    ∃ r, play_turn st ms coin httpG httpF = Except.ok r := by
  simp only [play_turn]
  obtain ⟨msgs1, hq1⟩ := query_first_valid (ms st.guesser)
    (get_player_action_prompt { st with current_turn := st.current_turn + 1, coin_result := coin } st.guesser "guess" none none)
    httpG (ht st.guesser) h1
  have hga : get_player_action { st with current_turn := st.current_turn + 1, coin_result := coin } (ms st.guesser) st.guesser "guess" none none httpG =
      Except.ok (httpText (httpG 0), { ms st.guesser with messages := msgs1 }) := by
    rw [get_player_action_guess_eq]
    exact hq1
  simp only [hga]
  obtain ⟨pg, hpg⟩ := parse_guess_ok_of_validate h1
  simp only [hpg]
  have htf : (dictUpdM ms st.guesser { ms st.guesser with messages := msgs1 } st.flipper).temperature ≤ 1 := by
    unfold dictUpdM
    by_cases hp : st.flipper = st.guesser
    · rw [if_pos hp]
      exact ht st.guesser
    · rw [if_neg hp]
      exact ht st.flipper
  obtain ⟨msgs2, hq2⟩ := query_first_valid
    (dictUpdM ms st.guesser { ms st.guesser with messages := msgs1 } st.flipper)
    (get_player_action_prompt { st with current_turn := st.current_turn + 1, coin_result := coin, esp_used := pg.2 } st.flipper "accuse" (some coin) (some (if pg.2 = true then coin else pg.1)))
    httpF htf h2
  have hacc : get_player_action { st with current_turn := st.current_turn + 1, coin_result := coin, esp_used := pg.2 } (dictUpdM ms st.guesser { ms st.guesser with messages := msgs1 } st.flipper) st.flipper "accuse" (some coin) (some (if pg.2 = true then coin else pg.1)) httpF =
      Except.ok (httpText (httpF 0),
        { dictUpdM ms st.guesser { ms st.guesser with messages := msgs1 } st.flipper with messages := msgs2 }) := by
    rw [get_player_action_accuse_eq]
    exact hq2
  simp only [hacc]
  obtain ⟨acc, hpa⟩ := parse_accusation_ok_of_validate h2
  simp only [hpa]
  exact ⟨_, rfl⟩

theorem play_round_is_ok (st : GameState) (ms : String → MState) (o1 o2 : TurnOracle)
    (ht : ∀ p, (ms p).temperature ≤ 1)
    (h1 : validate_guess_action (httpText (o1.httpG 0)) = true)
    (h2 : validate_accuse_action (httpText (o1.httpF 0)) = true)
    (h3 : validate_guess_action (httpText (o2.httpG 0)) = true)
    (h4 : validate_accuse_action (httpText (o2.httpF 0)) = true) :
    ∃ r, play_round st ms o1 o2 = Except.ok r := by
  simp only [play_round]
  obtain ⟨⟨st1, ms1, out1⟩, ht1⟩ := play_turn_is_ok
    { st with current_round := st.current_round + 1, current_turn := 0 }
    ms o1.coin ht h1 h2
  simp only [ht1]
  have ht1' : ∀ p, (ms1 p).temperature ≤ 1 := by
    intro p
    obtain ⟨-, -, -, -, -, -, -, -, -, -, -, -, -, -, -, -, -, -, -, htmp⟩ :=
      play_turn_ok_inv ht1
    rw [htmp p]
    exact ht p
  obtain ⟨⟨st2, ms2, out2⟩, ht2⟩ := play_turn_is_ok
    (switch_flipper_and_guesser st1) ms1 o2.coin ht1' h3 h4
  simp only [ht2]
  exact ⟨_, rfl⟩

theorem play_match_go_is_ok :
    ∀ (fuel : Nat) (st : GameState) (ms : String → MState)
      (oracle : Nat → TurnOracle × TurnOracle),
      fuel = st.num_rounds - st.current_round →
      (∀ p, (ms p).temperature ≤ 1) →
      (∀ i, validate_guess_action (httpText ((oracle i).1.httpG 0)) = true ∧
            validate_accuse_action (httpText ((oracle i).1.httpF 0)) = true ∧
            validate_guess_action (httpText ((oracle i).2.httpG 0)) = true ∧
            validate_accuse_action (httpText ((oracle i).2.httpF 0)) = true) →
      ∃ r, play_match_go oracle fuel st ms = Except.ok r := by
  intro fuel
  induction fuel with
  | zero =>
    intro st ms oracle hfuel ht hv
    simp only [play_match_go]
    rw [if_neg (by omega)]
    exact ⟨_, rfl⟩
  | succ fuel ih =>
    intro st ms oracle hfuel ht hv
    have hr : st.current_round < st.num_rounds := by omega
    simp only [play_match_go]
    rw [if_pos hr]
    obtain ⟨⟨st1, ms1, outsR⟩, hro⟩ := play_round_is_ok st ms
      (oracle st.current_round).1 (oracle st.current_round).2
      ht (hv st.current_round).1 (hv st.current_round).2.1
      (hv st.current_round).2.2.1 (hv st.current_round).2.2.2
    simp only [hro]
    obtain ⟨-, -, -, -, -, -, -, -, -, rnr, rcr, -, -, -, rtp, -⟩ := play_round_ok_inv hro
    have ht1 : ∀ p, (ms1 p).temperature ≤ 1 := fun p => by rw [rtp p]; exact ht p
    have hfuel1 : fuel = st1.num_rounds - st1.current_round := by
      rw [rnr, rcr]
      omega
    obtain ⟨⟨st2, ms2, rest⟩, hgo⟩ := ih st1 ms1 oracle hfuel1 ht1 hv
    simp only [hgo]
    exact ⟨_, rfl⟩

theorem headD_mem_of_length_pos {α : Type} {l : List α} (d : α)
    (h : 0 < l.length) : l.headD d ∈ l := by
  cases l with
  | nil => simp at h
  | cons a t => exact List.mem_cons_self a t

theorem match_total_sound {p1 p2 : String} {n : Nat} {ms : String → MState}
    {oracle : Nat → TurnOracle × TurnOracle}
    {res : GameState × (String → MState) × List TurnOutput}
    (hne : p1 ≠ p2)
    (h : play_match (mkCoinFlipGame p1 p2 n) ms oracle = Except.ok res) :
    ∀ out ∈ res.2.2,
      turnTotal out = 0 ∨ turnTotal out = 1 ∨ turnTotal out = 2 ∨ turnTotal out = 11 := by
  obtain ⟨st', ms', outs⟩ := res
  have h' : play_match_go oracle
      ((mkCoinFlipGame p1 p2 n).num_rounds - (mkCoinFlipGame p1 p2 n).current_round)
      (mkCoinFlipGame p1 p2 n) ms = Except.ok (st', ms', outs) := h
  exact (play_match_go_spec _ _ _ _ _ _ _ rfl h').2.2.2.2.2.2.2.2.2.2 hne

/-- C2 counterexample: the claim asserts that every member of
{0, 1, 2, 10, 11} is a reachable per-turn delta total. A total of 10 would
require `esp_used ∧ accusation` without the guesser's correct-guess point, but
the ESP override forces `guess == coin_outcome`, so the flipper's +10 always
arrives together with the guesser's +1: no turn of any match totals 10. -/
theorem C2_counterexample : ¬ ReachableTurnTotal 10 := by
  rintro ⟨p1, p2, rounds, ms, oracle, res, out, hne, hcoins, hok, hmem, htot⟩
  rcases match_total_sound hne hok out hmem with h | h | h | h <;>
    rw [htot] at h <;> omega

/-- C2 (amended): for every turn of every completed match between two distinct
players, the per-turn delta total `deltas[flipper] + deltas[guesser]` lies in
{0, 1, 2, 11}, and each member of THAT set is reachable by some turn; 10 is
not reachable because the ESP override makes the flipper's +10 always stack
with the guesser's +1 (total 11). -/
theorem C2_turn_total_set :
    (∀ (p1 p2 : String) (n : Nat) (ms : String → MState)
        (oracle : Nat → TurnOracle × TurnOracle)
        (res : GameState × (String → MState) × List TurnOutput),
      p1 ≠ p2 →
      play_match (mkCoinFlipGame p1 p2 n) ms oracle = Except.ok res →
      ∀ out ∈ res.2.2,
        turnTotal out = 0 ∨ turnTotal out = 1 ∨ turnTotal out = 2 ∨ turnTotal out = 11) ∧
    ReachableTurnTotal 0 ∧ ReachableTurnTotal 1 ∧
    ReachableTurnTotal 2 ∧ ReachableTurnTotal 11 := by
  refine ⟨fun p1 p2 n ms oracle res hne h => match_total_sound hne h, ?_, ?_, ?_, ?_⟩
  · refine ⟨"Player 1", "Player 2", 1, exMs, fun _ => (exOracleWrong, exOracleWrong),
      exMatchVal exOracleWrong, (exMatchVal exOracleWrong).2.2.headD default,
      by decide, fun i => ⟨List.mem_cons_self _ _, List.mem_cons_self _ _⟩, rfl, ?_, rfl⟩
    exact headD_mem_of_length_pos _ (by rw [show (exMatchVal exOracleWrong).2.2.length = 2 from rfl]; omega)
  · refine ⟨"Player 1", "Player 2", 1, exMs, fun _ => (exOracleCorrect, exOracleCorrect),
      exMatchVal exOracleCorrect, (exMatchVal exOracleCorrect).2.2.headD default,
      by decide, fun i => ⟨List.mem_cons_self _ _, List.mem_cons_self _ _⟩, rfl, ?_, rfl⟩
    exact headD_mem_of_length_pos _ (by rw [show (exMatchVal exOracleCorrect).2.2.length = 2 from rfl]; omega)
  · refine ⟨"Player 1", "Player 2", 1, exMs, fun _ => (exOracleCorrectAcc, exOracleCorrectAcc),
      exMatchVal exOracleCorrectAcc, (exMatchVal exOracleCorrectAcc).2.2.headD default,
      by decide, fun i => ⟨List.mem_cons_self _ _, List.mem_cons_self _ _⟩, rfl, ?_, rfl⟩
    exact headD_mem_of_length_pos _ (by rw [show (exMatchVal exOracleCorrectAcc).2.2.length = 2 from rfl]; omega)
  · refine ⟨"Player 1", "Player 2", 1, exMs, fun _ => (exOracleEspAcc, exOracleEspAcc),
      exMatchVal exOracleEspAcc, (exMatchVal exOracleEspAcc).2.2.headD default,
      by decide, fun i => ⟨List.mem_cons_self _ _, List.mem_cons_self _ _⟩, rfl, ?_, rfl⟩
    exact headD_mem_of_length_pos _ (by rw [show (exMatchVal exOracleEspAcc).2.2.length = 2 from rfl]; omega)

/-- Witness for C2 at a concrete completed match: the ESP-and-accused turn's
total is one of the four reachable values. -/
theorem C2_turn_total_set_witness :
    turnTotal ((exMatchVal exOracleEspAcc).2.2.headD default) = 0 ∨
    turnTotal ((exMatchVal exOracleEspAcc).2.2.headD default) = 1 ∨
    turnTotal ((exMatchVal exOracleEspAcc).2.2.headD default) = 2 ∨
    turnTotal ((exMatchVal exOracleEspAcc).2.2.headD default) = 11 :=
  C2_turn_total_set.1 "Player 1" "Player 2" 1 exMs
    (fun _ => (exOracleEspAcc, exOracleEspAcc)) (exMatchVal exOracleEspAcc)
    (by decide) rfl ((exMatchVal exOracleEspAcc).2.2.headD default)
    (headD_mem_of_length_pos _
      (by rw [show (exMatchVal exOracleEspAcc).2.2.length = 2 from rfl]; omega))

/-- C4: in every turn whose validated guess action is USE_ESP (`esp_used` is
true), the guess used for scoring, the guess shown to the flipper in the
accusation prompt, and the guess recorded in the Turn Result all equal the
turn's coin outcome. -/
theorem C4_esp_override :
    ∀ (st : GameState) (ms : String → MState) (coin : String)
      (httpG httpF : Nat → HttpResult) (st' : GameState) (ms' : String → MState)
      (out : TurnOutput),
      play_turn st ms coin httpG httpF = Except.ok (st', ms', out) →
      out.summary.esp_used = true →
      out.summary.guess = coin ∧
      out.summary.coin_result = coin ∧
      out.summary.guess = out.summary.coin_result ∧
      out.score_changes = calculate_score { st with current_turn := st.current_turn + 1, coin_result := coin, esp_used := true, esp_accusation := out.summary.esp_accusation } coin ∧
      out.summary.score_changes = out.score_changes ∧
      out.accusePromptSent = get_player_action_prompt { st with current_turn := st.current_turn + 1, coin_result := coin, esp_used := true } st.flipper "accuse" (some coin) (some coin) := by
  intro st ms coin httpG httpF st' ms' out h hesp
  obtain ⟨esp, acc, h1, h2, h3, h4, h5, h6, h7, h8, h9, h10, h11, h12, h13, h14,
    h15, h16, h17, h18⟩ := play_turn_ok_inv h
  have hespT : esp = true := by rw [← h1, hesp]
  subst hespT
  have hg : out.summary.guess = coin := h4 rfl
  refine ⟨hg, h3, by rw [hg, h3], ?_, h6, ?_⟩
  · rw [h5, hg, ← h2]
  · rw [h7, hg]

/-- Witness for C4: a concrete ESP turn whose recorded guess is the coin. -/
theorem C4_esp_override_witness :
    exTurnVal.2.2.summary.guess = "heads" ∧
    exTurnVal.2.2.summary.coin_result = "heads" := by
  have h := C4_esp_override (mkCoinFlipGame "Player 1" "Player 2" 1) exMs "heads"
    exOracleEspAcc.httpG exOracleEspAcc.httpF exTurnVal.1 exTurnVal.2.1 exTurnVal.2.2
    rfl rfl
  exact ⟨h.1, h.2.1⟩

theorem roles_from_map {outs : List TurnOutput} {f g : String}
    (hm : outs.map (fun o => (o.flipper, o.guesser)) =
      (List.range outs.length).map (rolePattern f g))
    (k : Nat) (hk : k < outs.length) :
    (outs[k].flipper, outs[k].guesser) = rolePattern f g k := by
  have h1 : (outs.map (fun o => (o.flipper, o.guesser)))[k]? =
      ((List.range outs.length).map (rolePattern f g))[k]? := by rw [hm]
  rw [List.getElem?_map, List.getElem?_map, List.getElem?_eq_getElem hk,
    List.getElem?_eq_getElem (by simpa using hk)] at h1
  simpa using h1

/-- C6: in a match between two distinct players, the roles of every executed
turn are exactly the alternating pattern starting from (player1, player2); in
particular at every turn the flipper and guesser are distinct and the pair
{flipper, guesser} is exactly {player1, player2}; across any two consecutive
turns — a round boundary included — the roles swap; and the final state's
role fields again hold distinct players. -/
theorem C6_role_alternation :
    ∀ (p1 p2 : String) (n : Nat) (ms : String → MState)
      (oracle : Nat → TurnOracle × TurnOracle) (st' : GameState)
      (ms' : String → MState) (outs : List TurnOutput),
      p1 ≠ p2 →
      play_match (mkCoinFlipGame p1 p2 n) ms oracle = Except.ok (st', ms', outs) →
      (outs.map (fun o => (o.flipper, o.guesser)) =
        (List.range outs.length).map (rolePattern p1 p2)) ∧
      st'.flipper = p1 ∧ st'.guesser = p2 ∧ st'.flipper ≠ st'.guesser ∧
      (∀ (k : Nat) (hk : k < outs.length),
        outs[k].flipper ≠ outs[k].guesser ∧
        ((outs[k].flipper = p1 ∧ outs[k].guesser = p2) ∨
         (outs[k].flipper = p2 ∧ outs[k].guesser = p1))) ∧
      (∀ (k : Nat) (hk : k + 1 < outs.length),
        outs[k + 1].flipper = outs[k].guesser ∧
        outs[k + 1].guesser = outs[k].flipper) := by
  intro p1 p2 n ms oracle st' ms' outs hne h
  have h' : play_match_go oracle
      ((mkCoinFlipGame p1 p2 n).num_rounds - (mkCoinFlipGame p1 p2 n).current_round)
      (mkCoinFlipGame p1 p2 n) ms = Except.ok (st', ms', outs) := h
  obtain ⟨-, -, -, gfl, ggu, -, -, gmap, -, -, -⟩ :=
    play_match_go_spec _ _ _ _ _ _ _ rfl h'
  have hfl : st'.flipper = p1 := gfl
  have hgu : st'.guesser = p2 := ggu
  refine ⟨gmap, hfl, hgu, by rw [hfl, hgu]; exact hne, ?_, ?_⟩
  · intro k hk
    have hr := roles_from_map gmap k hk
    unfold rolePattern at hr
    by_cases hpar : k % 2 = 0
    · rw [if_pos hpar] at hr
      rw [Prod.mk.injEq] at hr
      obtain ⟨ha, hb⟩ := hr
      exact ⟨by rw [ha, hb]; exact hne, Or.inl ⟨ha, hb⟩⟩
    · rw [if_neg hpar] at hr
      rw [Prod.mk.injEq] at hr
      obtain ⟨ha, hb⟩ := hr
      exact ⟨by rw [ha, hb]; exact fun hc => hne hc.symm, Or.inr ⟨ha, hb⟩⟩
  · intro k hk
    have hr1 := roles_from_map gmap k (by omega)
    have hr2 := roles_from_map gmap (k + 1) hk
    unfold rolePattern at hr1 hr2
    by_cases hpar : k % 2 = 0
    · rw [if_pos hpar] at hr1
      rw [if_neg (by omega)] at hr2
      rw [Prod.mk.injEq] at hr1 hr2
      exact ⟨by rw [hr2.1, hr1.2], by rw [hr2.2, hr1.1]⟩
    · rw [if_neg hpar] at hr1
      rw [if_pos (by omega)] at hr2
      rw [Prod.mk.injEq] at hr1 hr2
      exact ⟨by rw [hr2.1, hr1.2], by rw [hr2.2, hr1.1]⟩

/-- Witness for C6: a concrete one-round match ends with Player 1 flipping
again and its two turns' roles follow the alternating pattern. -/
theorem C6_role_alternation_witness :
    (exMatchVal exOracleCorrect).1.flipper = "Player 1" ∧
    (exMatchVal exOracleCorrect).1.guesser = "Player 2" := by
  have h := C6_role_alternation "Player 1" "Player 2" 1 exMs
    (fun _ => (exOracleCorrect, exOracleCorrect)) (exMatchVal exOracleCorrect).1
    (exMatchVal exOracleCorrect).2.1 (exMatchVal exOracleCorrect).2.2
    (by decide) rfl
  exact ⟨h.2.1, h.2.2.1⟩

/-- C7: a match configured for N rounds (any N ≥ 0) whose agents' first
responses each turn are validator-accepted runs to completion with no early
termination: the match loop terminates in the `Except.ok` branch, exactly 2N
turns execute (each round contributes exactly two), the final round counter is
N, and the final scores are the initial scores plus the sum of all per-turn
deltas. -/
theorem C7_match_2n_turns :
    ∀ (p1 p2 : String) (n : Nat) (ms : String → MState)
      (oracle : Nat → TurnOracle × TurnOracle),
      (∀ p, (ms p).temperature ≤ 1) →
      (∀ i, validate_guess_action (httpText ((oracle i).1.httpG 0)) = true ∧
            validate_accuse_action (httpText ((oracle i).1.httpF 0)) = true ∧
            validate_guess_action (httpText ((oracle i).2.httpG 0)) = true ∧
            validate_accuse_action (httpText ((oracle i).2.httpF 0)) = true) →
      (play_match (mkCoinFlipGame p1 p2 n) ms oracle).isOk = true ∧
      (∀ (st' : GameState) (ms' : String → MState) (outs : List TurnOutput),
        play_match (mkCoinFlipGame p1 p2 n) ms oracle = Except.ok (st', ms', outs) →
        outs.length = 2 * n ∧ st'.current_round = n ∧ st'.num_rounds = n ∧
        (∀ p, st'.scores p =
          (mkCoinFlipGame p1 p2 n).scores p + ((outs.map (fun o => o.score_changes p)).sum))) := by
  intro p1 p2 n ms oracle ht hv
  constructor
  · obtain ⟨r, hr⟩ := play_match_go_is_ok
      ((mkCoinFlipGame p1 p2 n).num_rounds - (mkCoinFlipGame p1 p2 n).current_round)
      (mkCoinFlipGame p1 p2 n) ms oracle rfl ht hv
    show (play_match_go oracle _ _ _).isOk = true
    rw [hr]
    rfl
  · intro st' ms' outs h
    have h' : play_match_go oracle
        ((mkCoinFlipGame p1 p2 n).num_rounds - (mkCoinFlipGame p1 p2 n).current_round)
        (mkCoinFlipGame p1 p2 n) ms = Except.ok (st', ms', outs) := h
    obtain ⟨-, -, gnr, -, -, glen, gcr, -, gsc, -, -⟩ :=
      play_match_go_spec _ _ _ _ _ _ _ rfl h'
    refine ⟨?_, ?_, ?_, gsc⟩
    · rw [glen]
      show 2 * (n - 0) = 2 * n
      omega
    · rw [gcr]
      show max 0 n = n
      omega
    · rw [gnr]
      rfl

/-- Witness for C7: a concrete one-round match completes. -/
theorem C7_match_2n_turns_witness :
    (play_match (mkCoinFlipGame "Player 1" "Player 2" 1) exMs
      (fun _ => (exOracleCorrect, exOracleCorrect))).isOk = true :=
  (C7_match_2n_turns "Player 1" "Player 2" 1 exMs
    (fun _ => (exOracleCorrect, exOracleCorrect))
    (fun p => by norm_num [exMs, mkOllamaModel])
    (fun i => ⟨rfl, rfl, rfl, rfl⟩)).1

/-- C5 counterexample: the claim says two game states agreeing on the previous
Turn Result, the asking player, the cumulative scores and the player names
produce character-identical summaries regardless of the current flipper/guesser
role assignment. `cexSt1` and `cexSt2` agree on all of those and differ only in
the current role assignment, yet Player 1's summaries differ — line 180 reads
`was_guesser = player == self.flipper`, so the output depends on the CURRENT
flipper. -/
theorem C5_counterexample :
    cexSt1.previous_turn_result = cexSt2.previous_turn_result ∧
    cexSt1.player1 = cexSt2.player1 ∧
    cexSt1.player2 = cexSt2.player2 ∧
    cexSt1.scores = cexSt2.scores ∧
    generate_personalized_summary cexSt1 "Player 1" ≠
      generate_personalized_summary cexSt2 "Player 1" := by
  refine ⟨rfl, rfl, rfl, rfl, ?_⟩
  decide

/-- C5 (amended): the Summary Generator is a pure function of the previous
Turn Result, the asking player, the cumulative scores, the player names AND
the current flipper role assignment: two states agreeing on those five pieces
of state yield identical summaries for every player, whatever their other
fields (current guesser included). -/
theorem C5_summary_pure_given_flipper :
    ∀ (st1 st2 : GameState) (player : String),
      st1.previous_turn_result = st2.previous_turn_result →
      st1.player1 = st2.player1 →
      st1.player2 = st2.player2 →
      st1.scores = st2.scores →
      st1.flipper = st2.flipper →
      generate_personalized_summary st1 player =
        generate_personalized_summary st2 player := by
  intro st1 st2 player h1 h2 h3 h4 h5
  cases st1
  cases st2
  dsimp only at h1 h2 h3 h4 h5
  subst h1
  subst h2
  subst h3
  subst h4
  subst h5
  rfl

/-- Witness for C5: two states that differ in the current guesser (and only
there) get identical summaries. -/
theorem C5_summary_pure_given_flipper_witness :
    generate_personalized_summary cexSt1 "Player 1" =
      generate_personalized_summary cexSt3 "Player 1" :=
  C5_summary_pure_given_flipper cexSt1 cexSt3 "Player 1" rfl rfl rfl rfl rfl
